import Mathlib

/-!
# Verification of the Angular 5 → 20 migration engine

A shallow embedding, in Lean 4, of the core of the migration tool:

* `ModernizationTransformer` (src/transformers/ModernizationTransformer.ts):
  the ordered per-file rewrite pipeline;
* `Angular5Analyzer` (src/analyzers/Angular5Analyzer.ts): the pattern
  detector;
* `ProjectAnalyzer` (src/analyzers/ProjectAnalyzer.ts): file
  classification and per-file project analysis;
* `BackendAgnosticMigrationEngine` (src/core/BackendAgnosticMigrationEngine.ts):
  the coordinator (detection, filtered transformation, summary, report).

The source performs all matching with JavaScript regular expressions over
raw text.  Every regular expression used by the source is small (literals,
`\s*`, `\w+`, and single negated character classes), so each one is
embedded here as a dedicated maximal-munch scanner over `List Char`;
comments on each scanner state the regex it implements and why
maximal-munch agrees with the backtracking semantics of the JavaScript
engine for that pattern.  Filesystem reads, `glob` expansion and the
system clock are I/O and appear as explicit parameters (lists of
discovered paths and `(path, content)` pairs); wall-clock durations are
modelled as `0`.

All scanners take an explicit fuel argument so that they are structurally
recursive and hence reducible by the kernel (`decide` / `rfl`).  Each
scanning step either consumes at least one character of the remaining
input or terminates, so fuel `length + 1` is always sufficient; the
wrappers below always supply it.
-/

/-! ## Character and string utilities -/

/-- Double-quote character (JS `"`), written via its code point. -/
def dqChar : Char := Char.ofNat 34

/-- Single-quote character of JS, written via its code point. -/
def sqChar : Char := Char.ofNat 39

/-- Opening-brace character. -/
def lbChar : Char := Char.ofNat 123

/-- Closing-brace character. -/
def rbChar : Char := Char.ofNat 125

/-- Whitespace class of JavaScript regexes (`\s`) and of `String.trim`,
restricted to the code points that occur in practice: space, tab, LF, CR,
vertical tab, form feed, NBSP and the BOM. -/
def isWsChar (c : Char) : Bool :=
  c = ' ' || c = '\t' || c = '\n' || c = '\r' ||
  c = Char.ofNat 11 || c = Char.ofNat 12 || c = Char.ofNat 160 ||
  c = Char.ofNat 65279

/-- Word-character class of JavaScript regexes (`\w` = `[A-Za-z0-9_]`),
written over code points. -/
def isWordChar (c : Char) : Bool :=
  let n := c.toNat
  (97 ≤ n && n ≤ 122) || (65 ≤ n && n ≤ 90) || (48 ≤ n && n ≤ 57) || n = 95

/-- `startsWithChars needle hay` holds when `needle` is an initial
segment of `hay` (JS `String.startsWith` on char lists). -/
def startsWithChars : List Char → List Char → Bool
  | [], _ => true
  | _ :: _, [] => false
  | n :: ns, h :: hs => n = h && startsWithChars ns hs

/-- `occursIn needle hay`: `needle` occurs as a contiguous substring of
`hay` (JS `String.includes`). -/
def occursIn (needle : List Char) : List Char → Bool
  | [] => startsWithChars needle []
  | c :: rest => startsWithChars needle (c :: rest) || occursIn needle rest

/-- JS `hay.includes(needle)` on strings. -/
def containsStr (hay needle : String) : Bool :=
  occursIn needle.toList hay.toList

/-- Length of the maximal initial segment of the list satisfying `p`. -/
def countWhile (p : Char → Bool) : List Char → Nat
  | [] => 0
  | c :: rest => if p c then countWhile p rest + 1 else 0

/-- JS `String.trim` (strip whitespace at both ends). -/
def trimStr (s : String) : String :=
  (((s.toList.dropWhile isWsChar).reverse.dropWhile isWsChar).reverse).asString

/-- Global replacement driven by a matcher.  `tryM` attempts a match at
the head of the remaining input and returns the match length together
with the replacement text.  This is JS `String.replace` with a global
regex: leftmost non-overlapping matches, the replacement text is not
rescanned.  All matchers used here only succeed with positive length., -/
def scanReplaceAll (tryM : List Char → Option (Nat × List Char)) :
    Nat → List Char → List Char
  | 0, hay => hay
  | _ + 1, [] => []
  | fuel + 1, c :: rest =>
    match tryM (c :: rest) with
    | some (len, repl) => repl ++ scanReplaceAll tryM fuel (List.drop len (c :: rest))
    | none => c :: scanReplaceAll tryM fuel rest

/-- First-match replacement (JS `String.replace` with a non-global
regex, or with a plain string pattern). -/
def scanReplaceFirst (tryM : List Char → Option (Nat × List Char)) :
    Nat → List Char → List Char
  | 0, hay => hay
  | _ + 1, [] => []
  | fuel + 1, c :: rest =>
    match tryM (c :: rest) with
    | some (len, repl) => repl ++ List.drop len (c :: rest)
    | none => c :: scanReplaceFirst tryM fuel rest

/-- Leftmost match of a capturing matcher (JS `String.match` without the
global flag; only the payload is retained). -/
def scanFirst {α : Type} (tryM : List Char → Option α) :
    Nat → List Char → Option α
  | 0, _ => none
  | fuel + 1, hay =>
    match tryM hay with
    | some a => some a
    | none =>
      match hay with
      | [] => none
      | _ :: rest => scanFirst tryM fuel rest

/-- All non-overlapping leftmost matches together with their start
indices (JS `RegExp.exec` loop with the `g` flag; `lastIndex` advances by
the match length, all matchers used here have positive length). -/
def scanFindAll {α : Type} (tryM : List Char → Option (Nat × α)) :
    Nat → Nat → List Char → List (Nat × α)
  | 0, _, _ => []
  | fuel + 1, idx, hay =>
    match tryM hay with
    | some (len, a) => (idx, a) :: scanFindAll tryM fuel (idx + len) (List.drop len hay)
    | none =>
      match hay with
      | [] => []
      | _ :: rest => scanFindAll tryM fuel (idx + 1) rest

/-- All start indices of a literal substring, overlapping occurrences
included (used for the backtracking analysis of `.*` patterns). -/
def positionsOf (needle : List Char) : Nat → Nat → List Char → List Nat
  | 0, _, _ => []
  | fuel + 1, idx, hay =>
    match hay with
    | [] => []
    | _ :: rest =>
      if startsWithChars needle hay then
        idx :: positionsOf needle fuel (idx + 1) rest
      else
        positionsOf needle fuel (idx + 1) rest

/-- String wrapper for `scanReplaceAll` with always-sufficient fuel. -/
def replaceAllM (tryM : List Char → Option (Nat × List Char)) (s : String) : String :=
  (scanReplaceAll tryM (s.toList.length + 1) s.toList).asString

/-- String wrapper for `scanReplaceFirst` with always-sufficient fuel. -/
def replaceFirstM (tryM : List Char → Option (Nat × List Char)) (s : String) : String :=
  (scanReplaceFirst tryM (s.toList.length + 1) s.toList).asString

/-- String wrapper for `scanFirst` with always-sufficient fuel. -/
def firstMatchM {α : Type} (tryM : List Char → Option α) (s : String) : Option α :=
  scanFirst tryM (s.toList.length + 1) s.toList

/-- String wrapper for `scanFindAll` with always-sufficient fuel. -/
def findAllM {α : Type} (tryM : List Char → Option (Nat × α)) (s : String) :
    List (Nat × α) :=
  scanFindAll tryM (s.toList.length + 1) 0 s.toList

/-- Matcher for a literal string at the head of the input; the payload is
the matched text. -/
def tryLit (lit : List Char) (cs : List Char) : Option (Nat × List Char) :=
  if startsWithChars lit cs then some (lit.length, lit) else none

/-! ## Data model (src/types/index.ts) -/

/-- `FileType` enumeration of src/types/index.ts. -/
inductive FileType where
  | component
  | service
  | module
  | routing
  | packageJson
  | angularJson
  | tsconfig
  | htmlTemplate
  | cssStyle
  | scssStyle
  | other
deriving Repr, DecidableEq, Inhabited

/-- `IssueType` enumeration of src/types/index.ts. -/
inductive IssueType where
  | deprecated_api
  | missing_import
  | incompatible_version
  | standalone_migration
  | inject_migration
  | control_flow_migration
  | typed_forms_migration
  | module_dependency
deriving Repr, DecidableEq, Inhabited

/-- `IssueSeverity` enumeration of src/types/index.ts. -/
inductive IssueSeverity where
  | error
  | warning
  | info
  | suggestion
deriving Repr, DecidableEq, Inhabited

/-- `MigrationIssue` of src/types/index.ts.  Optional fields are absent
(`none`) exactly where the source omits them. -/
structure MigrationIssue where
  type : IssueType
  severity : IssueSeverity
  message : String
  line : Option Nat := none
  column : Option Nat := none
  suggestion : Option String := none
  code : Option String := none
deriving Repr, DecidableEq, Inhabited

/-- `TransformationType` enumeration of src/types/index.ts. -/
inductive TransformationType where
  | convert_to_standalone
  | replace_inject
  | update_control_flow
  | update_typed_forms
  | update_imports
  | update_dependencies
  | remove_ngmodule
deriving Repr, DecidableEq, Inhabited

/-- `TransformationStatus` enumeration of src/types/index.ts. -/
inductive TransformationStatus where
  | pending
  | applied
  | failed
  | skipped
deriving Repr, DecidableEq, Inhabited

/-- `Transformation` of src/types/index.ts (the optional `errors` field
is never set by the source and is omitted). -/
structure Transformation where
  type : TransformationType
  description : String
  before : String
  after : String
  status : TransformationStatus
deriving Repr, DecidableEq, Inhabited

/-- `AnalyzedFile` of src/types/index.ts (the optional `ast` field is
never set by the source and is omitted). -/
structure AnalyzedFile where
  path : String
  type : FileType
  content : String
  issues : List MigrationIssue
  transformations : List Transformation
deriving Repr, DecidableEq, Inhabited

/-- `MigrationMode` enumeration of src/types/index.ts. -/
inductive MigrationMode where
  | analyze
  | migrate
  | dry_run
deriving Repr, DecidableEq, Inhabited

/-- `MigrationOptions` of src/types/index.ts.  The `include` field of the
source is spelled `includeList` (and `exclude` is spelled `excludeList`
for symmetry) because `include` is a Lean keyword. -/
structure MigrationOptions where
  mode : MigrationMode
  backup : Bool
  autoApply : Bool
  excludeList : List String
  includeList : List String
  verbose : Bool
  generateReport : Bool
deriving Repr, DecidableEq, Inhabited

/-- `AngularProject` of src/types/index.ts.  The `config` field holds
filesystem metadata (paths of the manifests, parsed tsconfig) that only
echoes I/O inputs; it is omitted from the embedding. -/
structure AngularProject where
  path : String
  currentVersion : String
  targetVersion : String
  files : List AnalyzedFile
deriving Repr, DecidableEq, Inhabited

/-- `MigrationSummary` of src/types/index.ts. -/
structure MigrationSummary where
  totalFiles : Nat
  modifiedFiles : Nat
  totalIssues : Nat
  appliedTransformations : Nat
  failedTransformations : Nat
deriving Repr, DecidableEq, Inhabited

/-- `FileMigrationDetails` of src/types/index.ts. -/
structure FileMigrationDetails where
  file : AnalyzedFile
  issues : List MigrationIssue
  transformations : List Transformation
  processingTime : Nat
deriving Repr, DecidableEq, Inhabited

/-- `MigrationReport` of src/types/index.ts (the `options` echo and the
wall-clock `executionTime` are carried verbatim; `executionTime` is 0 in
the embedding). -/
structure MigrationReport where
  project : AngularProject
  options : MigrationOptions
  summary : MigrationSummary
  fileDetails : List FileMigrationDetails
  errors : List String
  recommendations : List String
  executionTime : Nat
deriving Repr, DecidableEq, Inhabited

/-! ## A model of `JSON.parse` / `JSON.stringify`

The manifest rules call the JavaScript built-ins `JSON.parse` and
`JSON.stringify(x, null, 2)`.  They are modelled by a recursive-descent
parser and a pretty-printer over the `Json` type below.  Numeric literals
are kept as their lexemes (`num raw`): the source never inspects or
reformats numbers (all version values are strings), so double rounding
and canonical re-printing of numbers are not modelled.  Duplicate object
keys follow JavaScript (last value wins, first position kept), and
`\uXXXX` escapes that do not denote a scalar value fall back to the
default `Char` instead of forming surrogate pairs. -/

/-- JSON values. -/
inductive Json where
  | null
  | bool (b : Bool)
  | num (raw : String)
  | str (s : String)
  | arr (items : List Json)
  | obj (fields : List (String × Json))
deriving Inhabited

/-- Backslash character, written via its code point. -/
def bsChar : Char := Char.ofNat 92

/-- The whitespace accepted by `JSON.parse` (only these four). -/
def skipJsonWs (cs : List Char) : List Char :=
  cs.dropWhile (fun c => c = ' ' || c = '\t' || c = '\n' || c = '\r')

/-- Decimal digit test, over code points. -/
def isDigitCh (c : Char) : Bool := 48 ≤ c.toNat && c.toNat ≤ 57

/-- Hexadecimal digit value, over code points. -/
def hexVal (c : Char) : Option Nat :=
  let n := c.toNat
  if 48 ≤ n && n ≤ 57 then some (n - 48)
  else if 97 ≤ n && n ≤ 102 then some (n - 87)
  else if 65 ≤ n && n ≤ 70 then some (n - 55)
  else none

/-- Body of a JSON string literal, after the opening quote.  Returns the
decoded string and the input after the closing quote. -/
def parseJsonString : Nat → List Char → List Char → Option (String × List Char)
  | 0, _, _ => none
  | _ + 1, _, [] => none
  | fuel + 1, acc, c :: rest =>
    if c = dqChar then some (acc.reverse.asString, rest)
    else if c = bsChar then
      match rest with
      | [] => none
      | e :: rest2 =>
        if e = dqChar then parseJsonString fuel (dqChar :: acc) rest2
        else if e = bsChar then parseJsonString fuel (bsChar :: acc) rest2
        else if e = '/' then parseJsonString fuel ('/' :: acc) rest2
        else if e = 'b' then parseJsonString fuel (Char.ofNat 8 :: acc) rest2
        else if e = 'f' then parseJsonString fuel (Char.ofNat 12 :: acc) rest2
        else if e = 'n' then parseJsonString fuel ('\n' :: acc) rest2
        else if e = 'r' then parseJsonString fuel ('\r' :: acc) rest2
        else if e = 't' then parseJsonString fuel ('\t' :: acc) rest2
        else if e = 'u' then
          match rest2 with
          | h1 :: h2 :: h3 :: h4 :: rest3 =>
            match hexVal h1, hexVal h2, hexVal h3, hexVal h4 with
            | some a, some b, some c3, some d =>
              parseJsonString fuel
                (Char.ofNat (((a * 16 + b) * 16 + c3) * 16 + d) :: acc) rest3
            | _, _, _, _ => none
          | _ => none
        else none
    else if c.toNat < 32 then none
    else parseJsonString fuel (c :: acc) rest

/-- A JSON number lexeme: `-? (0 | [1-9][0-9]*) (. [0-9]+)? ([eE][+-]?[0-9]+)?`. -/
def parseJsonNumber (cs : List Char) : Option (String × List Char) :=
  let (sign, cs1) :=
    match cs with
    | c :: r => if c = '-' then (['-'], r) else (([] : List Char), cs)
    | [] => ([], cs)
  match cs1 with
  | [] => none
  | d :: r =>
    if d = '0' then
      let (ip, cs2) := (['0'], r)
      let (fp, cs3) :=
        match cs2 with
        | '.' :: r2 =>
          let ds := r2.takeWhile isDigitCh
          if ds.isEmpty then ([], '.' :: r2) else ('.' :: ds, r2.drop ds.length)
        | _ => ([], cs2)
      if fp.isEmpty && (match cs2 with | '.' :: _ => true | _ => false) then none
      else
        match cs3 with
        | e :: r3 =>
          if e = 'e' || e = 'E' then
            let (sg, r4) :=
              match r3 with
              | s :: r4 => if s = '+' || s = '-' then ([s], r4) else (([] : List Char), r3)
              | [] => ([], r3)
            let ds := r4.takeWhile isDigitCh
            if ds.isEmpty then none
            else some ((sign ++ ip ++ fp ++ [e] ++ sg ++ ds).asString, r4.drop ds.length)
          else some ((sign ++ ip ++ fp).asString, cs3)
        | [] => some ((sign ++ ip ++ fp).asString, cs3)
    else if isDigitCh d then
      let ds := cs1.takeWhile isDigitCh
      let cs2 := cs1.drop ds.length
      let (fp, cs3) :=
        match cs2 with
        | '.' :: r2 =>
          let fds := r2.takeWhile isDigitCh
          if fds.isEmpty then ([], '.' :: r2) else ('.' :: fds, r2.drop fds.length)
        | _ => ([], cs2)
      if fp.isEmpty && (match cs2 with | '.' :: _ => true | _ => false) then none
      else
        match cs3 with
        | e :: r3 =>
          if e = 'e' || e = 'E' then
            let (sg, r4) :=
              match r3 with
              | s :: r4 => if s = '+' || s = '-' then ([s], r4) else (([] : List Char), r3)
              | [] => ([], r3)
            let eds := r4.takeWhile isDigitCh
            if eds.isEmpty then none
            else some ((sign ++ ds ++ fp ++ [e] ++ sg ++ eds).asString, r4.drop eds.length)
          else some ((sign ++ ds ++ fp).asString, cs3)
        | [] => some ((sign ++ ds ++ fp).asString, cs3)
    else none

/-- Replace an object field in place, or append it (JS assignment to a
member: existing keys keep their position, new keys go last). -/
def setField (k : String) (v : Json) : List (String × Json) → List (String × Json)
  | [] => [(k, v)]
  | (k0, v0) :: rest => if k0 = k then (k0, v) :: rest else (k0, v0) :: setField k v rest

mutual

/-- `JSON.parse` value parser.  Every recursive call is made after at
least one character of input has been consumed, so fuel `length + 1`
never runs out on the wrapped entry point `jsonParse`. -/
def parseJsonValue : Nat → List Char → Option (Json × List Char)
  | 0, _ => none
  | fuel + 1, cs =>
    match skipJsonWs cs with
    | [] => none
    | c :: rest =>
      if c = lbChar then
        match skipJsonWs rest with
        | c2 :: rest2 =>
          if c2 = rbChar then some (.obj [], rest2)
          else parseJsonMembers fuel [] (c2 :: rest2)
        | [] => none
      else if c = '[' then
        match skipJsonWs rest with
        | ']' :: rest2 => some (.arr [], rest2)
        | rest2 => parseJsonItems fuel [] rest2
      else if c = dqChar then
        match parseJsonString (rest.length + 1) [] rest with
        | some (s, rest2) => some (.str s, rest2)
        | none => none
      else if startsWithChars "true".toList (c :: rest) then
        some (.bool true, (c :: rest).drop 4)
      else if startsWithChars "false".toList (c :: rest) then
        some (.bool false, (c :: rest).drop 5)
      else if startsWithChars "null".toList (c :: rest) then
        some (.null, (c :: rest).drop 4)
      else
        match parseJsonNumber (c :: rest) with
        | some (raw, rest2) => some (.num raw, rest2)
        | none => none

/-- Members of a JSON object, positioned at the first character of a key
(duplicate keys: last value wins, first position kept). -/
def parseJsonMembers : Nat → List (String × Json) → List Char →
    Option (Json × List Char)
  | 0, _, _ => none
  | fuel + 1, acc, cs =>
    match cs with
    | c :: rest =>
      if c = dqChar then
        match parseJsonString (rest.length + 1) [] rest with
        | some (k, rest2) =>
          match skipJsonWs rest2 with
          | ':' :: rest3 =>
            match parseJsonValue fuel rest3 with
            | some (v, rest4) =>
              match skipJsonWs rest4 with
              | ',' :: rest5 =>
                match skipJsonWs rest5 with
                | c2 :: rest6 => parseJsonMembers fuel (setField k v acc) (c2 :: rest6)
                | [] => none
              | c2 :: rest5 =>
                if c2 = rbChar then some (.obj (setField k v acc), rest5) else none
              | [] => none
            | none => none
          | _ => none
        | none => none
      else none
    | [] => none

/-- Items of a JSON array, positioned at the first character of a value. -/
def parseJsonItems : Nat → List Json → List Char → Option (Json × List Char)
  | 0, _, _ => none
  | fuel + 1, acc, cs =>
    match parseJsonValue fuel cs with
    | some (v, rest) =>
      match skipJsonWs rest with
      | ',' :: rest2 => parseJsonItems fuel (acc ++ [v]) rest2
      | ']' :: rest2 => some (.arr (acc ++ [v]), rest2)
      | _ => none
    | none => none

end

/-- `JSON.parse`: parse a complete value, allowing only trailing
whitespace. -/
def jsonParse (s : String) : Option Json :=
  match parseJsonValue (s.toList.length + 1) s.toList with
  | some (v, rest) => if (skipJsonWs rest).isEmpty then some v else none
  | none => none

/-- Escape one character for a JSON string literal as
`JSON.stringify` does. -/
def jsonEscapeChar (c : Char) : List Char :=
  if c = dqChar then [bsChar, dqChar]
  else if c = bsChar then [bsChar, bsChar]
  else if c = '\n' then [bsChar, 'n']
  else if c = '\r' then [bsChar, 'r']
  else if c = '\t' then [bsChar, 't']
  else if c = Char.ofNat 8 then [bsChar, 'b']
  else if c = Char.ofNat 12 then [bsChar, 'f']
  else if c.toNat < 32 then
    let hx := fun (n : Nat) =>
      if n < 10 then Char.ofNat ('0'.toNat + n) else Char.ofNat ('a'.toNat + n - 10)
    [bsChar, 'u', '0', '0', hx (c.toNat / 16), hx (c.toNat % 16)]
  else [c]

/-- Quote and escape a string as a JSON string literal. -/
def jsonQuote (s : String) : String :=
  (dqChar :: (s.toList.flatMap jsonEscapeChar) ++ [dqChar]).asString

/-- `n` levels of two-space indentation. -/
def jsonIndent (n : Nat) : String := (List.replicate (2 * n) ' ').asString

mutual

/-- `JSON.stringify(v, null, 2)` (numbers are printed as their stored
lexemes; see the section comment). -/
def jsonStringify (ind : Nat) : Json → String
  | .null => "null"
  | .bool b => if b then "true" else "false"
  | .num raw => raw
  | .str s => jsonQuote s
  | .arr [] => "[]"
  | .arr (x :: xs) =>
    "[\n" ++ jsonStringifyItems (ind + 1) (x :: xs) ++ "\n" ++ jsonIndent ind ++ "]"
  | .obj [] => (lbChar :: [rbChar]).asString
  | .obj (f :: fs) =>
    (lbChar :: "\n".toList).asString ++ jsonStringifyFields (ind + 1) (f :: fs) ++
      "\n" ++ jsonIndent ind ++ ([rbChar]).asString

/-- Array items, each on its own indented line, comma-separated. -/
def jsonStringifyItems (ind : Nat) : List Json → String
  | [] => ""
  | [x] => jsonIndent ind ++ jsonStringify ind x
  | x :: y :: xs =>
    jsonIndent ind ++ jsonStringify ind x ++ ",\n" ++ jsonStringifyItems ind (y :: xs)

/-- Object fields, each on its own indented line, comma-separated. -/
def jsonStringifyFields (ind : Nat) : List (String × Json) → String
  | [] => ""
  | [(k, v)] => jsonIndent ind ++ jsonQuote k ++ ": " ++ jsonStringify ind v
  | (k, v) :: f :: fs =>
    jsonIndent ind ++ jsonQuote k ++ ": " ++ jsonStringify ind v ++ ",\n" ++
      jsonStringifyFields ind (f :: fs)

end

/-- Field lookup in a parsed object (`undefined` is `none`). -/
def getField (fields : List (String × Json)) (k : String) : Option Json :=
  match fields.find? (fun kv => kv.1 = k) with
  | some kv => some kv.2
  | none => none

/-- Remove an object field (JS `delete`). -/
def removeField (fields : List (String × Json)) (k : String) : List (String × Json) :=
  fields.filter (fun kv => kv.1 ≠ k)

/-- JavaScript truthiness of a JSON value (`""`, `0`, `false`, `null`
are falsy; objects and arrays are truthy). -/
def truthy : Json → Bool
  | .null => false
  | .bool b => b
  | .str s => !s.isEmpty
  | .num raw => !(raw.toList.filter isDigitCh).all (fun c => c = '0')
  | .arr _ => true
  | .obj _ => true

/-- JS member access `j[k]` for a string key: only objects yield values
(array/string indexing by these non-numeric keys is `undefined`). -/
def memberJs (j : Json) (k : String) : Option Json :=
  match j with
  | .obj fs => getField fs k
  | _ => none

/-- JS object spread `{...j}`: objects keep their fields, arrays and
strings contribute index keys, primitives contribute nothing. -/
def spreadFields : Json → List (String × Json)
  | .obj fs => fs
  | .arr xs => xs.enum.map (fun p => (toString p.1, p.2))
  | .str s => s.toList.enum.map (fun p => (toString p.1, Json.str (String.mk [p.2])))
  | _ => []

/-- `{...a, ...b}` where `a`, `b` are possibly-`undefined` member values
(later spreads override earlier keys in place). -/
def mergeSpread (a b : Option Json) : List (String × Json) :=
  let sp := fun (o : Option Json) => match o with | some j => spreadFields j | none => []
  (sp b).foldl (fun acc kv => setField kv.1 kv.2 acc) (sp a)

/-! ## Matchers for the individual regular expressions

Each `try…` function attempts its regex anchored at the head of the
input and returns the match length (plus captures).  `len` is recovered
as `input length - remaining length`.  Maximal munch is exact for these
patterns: every `\s*`, `\w+`, `[^X]+` is followed by a literal that its
own class cannot match, except where noted (constructor parameters and
the short `*ngFor` form, whose backtracking is computed explicitly). -/

/-- Single-quote string of JS. -/
def sqStr : String := String.mk [sqChar]

/-- Double-quote string (JS `"`). -/
def dqStr : String := String.mk [dqChar]

/-- Opening-brace string. -/
def lbStr : String := String.mk [lbChar]

/-- Closing-brace string. -/
def rbStr : String := String.mk [rbChar]

/-- Expect a literal, returning the remaining input. -/
def expectLit (lit : List Char) (cs : List Char) : Option (List Char) :=
  if startsWithChars lit cs then some (cs.drop lit.length) else none

/-- Expect one given character. -/
def expectChar (c : Char) : List Char → Option (List Char)
  | x :: rest => if x = c then some rest else none
  | [] => none

/-- Consume `\s*` (maximal). -/
def skipWs (cs : List Char) : List Char := cs.drop (countWhile isWsChar cs)

/-- Consume `\w+` (maximal, at least one), returning the word and the
remaining input. -/
def takeWord (cs : List Char) : Option (List Char × List Char) :=
  let w := cs.takeWhile isWordChar
  if w.isEmpty then none else some (w, cs.drop w.length)

/-- Either quote character (the two-quote character class). -/
def isQuoteChar (c : Char) : Bool := c = dqChar || c = sqChar

/-- Regex `@Component\s*\(\s*\{([^}]+)\}\s*\)`; payload is the capture. -/
def tryComponentDecorator (cs : List Char) : Option (Nat × String) := do
  let r1 ← expectLit "@Component".toList cs
  let r2 ← expectChar '(' (skipWs r1)
  let r3 ← expectChar lbChar (skipWs r2)
  let body := r3.takeWhile (fun c => c ≠ rbChar)
  if body.isEmpty then none
  else do
    let r4 ← expectChar rbChar (r3.drop body.length)
    let r5 ← expectChar ')' (skipWs r4)
    some (cs.length - r5.length, body.asString)

/-- Regex `@Injectable\s*\(\s*\{([^}]*)\}\s*\)`; the capture may be
empty. -/
def tryInjectableDecorator (cs : List Char) : Option (Nat × String) := do
  let r1 ← expectLit "@Injectable".toList cs
  let r2 ← expectChar '(' (skipWs r1)
  let r3 ← expectChar lbChar (skipWs r2)
  let body := r3.takeWhile (fun c => c ≠ rbChar)
  let r4 ← expectChar rbChar (r3.drop body.length)
  let r5 ← expectChar ')' (skipWs r4)
  some (cs.length - r5.length, body.asString)

/-- Regex `constructor\s*\(\s*([^)]+)\s*\)`; payload is (matched text,
capture).  The inner `\s*` is greedy but backtracks so that `([^)]+)`
keeps at least one character: the capture drops
`min wsPrefix (body.length - 1)` leading whitespace characters of the
parenthesised body (for an all-whitespace body the capture is its final
character). -/
def tryConstructor (cs : List Char) : Option (Nat × (String × String)) := do
  let r1 ← expectLit "constructor".toList cs
  let r2 ← expectChar '(' (skipWs r1)
  let body := r2.takeWhile (fun c => c ≠ ')')
  if body.isEmpty then none
  else do
    let r3 ← expectChar ')' (r2.drop body.length)
    let k := min (countWhile isWsChar body) (body.length - 1)
    let len := cs.length - r3.length
    some (len, ((cs.take len).asString, (body.drop k).asString))

/-- Regex `(\w+):\s*(\w+)`; payload is the two captures. -/
def tryNameColonType (cs : List Char) : Option (Nat × (String × String)) := do
  let (w1, r1) ← takeWord cs
  let r2 ← expectChar ':' r1
  let (w2, r3) ← takeWord (skipWs r2)
  some (cs.length - r3.length, (w1.asString, w2.asString))

/-- Regex `fn\s*\(\s*\)` for a literal callee `fn` (used for
`FormGroup` and `FormControl`). -/
def tryCallEmpty (fn : String) (cs : List Char) : Option Nat := do
  let r1 ← expectLit fn.toList cs
  let r2 ← expectChar '(' (skipWs r1)
  let r3 ← expectChar ')' (skipWs r2)
  some (cs.length - r3.length)

/-- Regex `import\s*\{([^}]+)\}\s*from\s*Q@angular\/coreQ` (where `Q` is the class of both quote characters); payload
is the capture (the two quotes are matched independently, as in the
character classes of the source). -/
def tryImportBraceCore (cs : List Char) : Option (Nat × String) := do
  let r1 ← expectLit "import".toList cs
  let r2 ← expectChar lbChar (skipWs r1)
  let body := r2.takeWhile (fun c => c ≠ rbChar)
  if body.isEmpty then none
  else do
    let r3 ← expectChar rbChar (r2.drop body.length)
    let r4 ← expectLit "from".toList (skipWs r3)
    match skipWs r4 with
    | q :: r5 =>
      if isQuoteChar q then do
        let r6 ← expectLit "@angular/core".toList r5
        match r6 with
        | q2 :: r7 => if isQuoteChar q2 then some (cs.length - r7.length, body.asString) else none
        | [] => none
      else none
    | [] => none

/-- `true` when a quoted `@angular/core` occurrence starts here. -/
def isQuoteCoreAt (l : List Char) : Bool :=
  match l with
  | q :: rest =>
    isQuoteChar q && startsWithChars "@angular/core".toList rest &&
      (match rest.drop 13 with
       | q2 :: _ => isQuoteChar q2
       | [] => false)
  | [] => false

/-- Regex `import.*from.*Q@angular\/coreQ` (no `s` flag: `.` stops
at a newline).  With both `.*` greedy and backtracking, the match, when
it exists, extends to the end of the last quoted `@angular/core`
occurrence on the line that is preceded by a `from` occurrence starting
at index ≥ 6 (so that `import` fits before it); payload is the match
length (15 = two quotes plus the 13 characters of `@angular/core`). -/
def tryImportLineCore (cs : List Char) : Option Nat :=
  if startsWithChars "import".toList cs then
    let line := cs.takeWhile (fun c => c ≠ '\n')
    let idxs := List.range line.length
    let corePos := idxs.filter (fun p => isQuoteCoreAt (line.drop p))
    let fromPos := idxs.filter
      (fun p => decide (6 ≤ p) && startsWithChars "from".toList (line.drop p))
    let valid := corePos.filter (fun p => fromPos.any (fun pf => decide (pf + 4 ≤ p)))
    match valid.getLast? with
    | some p => some (p + 15)
    | none => none
  else none

/-- Regex `export class \w+\s*\{`; payload is the matched text. -/
def tryExportClass (cs : List Char) : Option (Nat × String) := do
  let r1 ← expectLit "export class ".toList cs
  let (_, r2) ← takeWord r1
  let r3 ← expectChar lbChar (skipWs r2)
  let len := cs.length - r3.length
  some (len, (cs.take len).asString)

/-- Regex `\*ngIf="([^"]+)"`; payload is the capture. -/
def tryNgIfBinding (cs : List Char) : Option (Nat × String) := do
  let r1 ← expectLit ("*ngIf=".toList ++ [dqChar]) cs
  let body := r1.takeWhile (fun c => c ≠ dqChar)
  if body.isEmpty then none
  else do
    let r2 ← expectChar dqChar (r1.drop body.length)
    some (cs.length - r2.length, body.asString)

/-- Regex `\*ngFor="let (\w+) of ([^;]+); let (\w+) = index"`; payload is
the three captures. -/
def tryNgForIndex (cs : List Char) : Option (Nat × (String × String × String)) := do
  let r1 ← expectLit ("*ngFor=".toList ++ [dqChar] ++ "let ".toList) cs
  let (w1, r2) ← takeWord r1
  let r3 ← expectLit " of ".toList r2
  let coll := r3.takeWhile (fun c => c ≠ ';')
  if coll.isEmpty then none
  else do
    let r4 ← expectLit "; let ".toList (r3.drop coll.length)
    let (w3, r5) ← takeWord r4
    let r6 ← expectLit (" = index".toList ++ [dqChar]) r5
    some (cs.length - r6.length, (w1.asString, coll.asString, w3.asString))

/-- Index of the last occurrence of a character. -/
def lastIdxOf (c : Char) : List Char → Option Nat
  | [] => none
  | x :: rest =>
    match lastIdxOf c rest with
    | some i => some (i + 1)
    | none => if x = c then some 0 else none

/-- Regex `\*ngFor="let (\w+) of ([^;]+)"`; payload is the two captures.
`([^;]+)` is greedy and may cross quote characters, then backtracks until
the required closing `"`: the capture therefore extends to just before
the **last** quote inside the maximal semicolon-free run, and must be
nonempty (`j ≥ 1`). -/
def tryNgForSimple (cs : List Char) : Option (Nat × (String × String)) := do
  let r1 ← expectLit ("*ngFor=".toList ++ [dqChar] ++ "let ".toList) cs
  let (w1, r2) ← takeWord r1
  let r3 ← expectLit " of ".toList r2
  let run := r3.takeWhile (fun c => c ≠ ';')
  match lastIdxOf dqChar run with
  | some j =>
    if 1 ≤ j then
      some ((cs.length - r3.length) + j + 1, (w1.asString, (run.take j).asString))
    else none
  | none => none

/-- Regex `\|\s*NAME\b` for a literal pipe name (the trailing `\b` holds
when the next character is not a word character, or at end of input). -/
def tryPipe (pname : String) (cs : List Char) : Option (Nat × Unit) := do
  let r1 ← expectChar '|' cs
  let r2 ← expectLit pname.toList (skipWs r1)
  match r2 with
  | [] => some (cs.length, ())
  | c :: _ => if isWordChar c then none else some (cs.length - r2.length, ())

/-! ## ModernizationTransformer (src/transformers/ModernizationTransformer.ts)

Each rule inspects a content string and returns `none` (rule does not
fire) or one `Transformation` record whose `before` is the input and
whose `after` is the rewritten content; `transformFile` threads the
current content through the ordered rule list of its branch exactly as
the sequential `content = transformation.after` updates of the source do.  The
source wraps each rule body in `async` but awaits them immediately in
order, so the embedding is the synchronous composition. -/

namespace ModernizationTransformer

/-- A transformation rule: current content in, optional record out. -/
def Rule : Type := String → Option Transformation

/-- Sequential application of an ordered rule list: the `after` of a
firing rule becomes the input of the next rule (the `content =
transformation.after` updates of `transformComponent` etc.). -/
def applyRules : List Rule → String → List Transformation
  | [], _ => []
  | r :: rs, c =>
    match r c with
    | some t => t :: applyRules rs t.after
    | none => applyRules rs c

/-- The replacement decorator configuration built by
`convertToStandalone`. -/
def mkStandaloneConfig (updatedConfig : String) : String :=
  lbStr ++ "\n  standalone: true,\n  imports: [CommonModule], // TODO: Ajouter les imports nécessaires\n  " ++
    updatedConfig ++ "\n" ++ rbStr

/-- Replacement matcher used by the `content.replace(componentRegex,
...)` call of `convertToStandalone` (non-global: first match only; its
capture is the same one inspected by the guard). -/
def componentReplacer (cs : List Char) : Option (Nat × List Char) :=
  (tryComponentDecorator cs).map
    (fun m => (m.1, ("@Component(" ++ mkStandaloneConfig (trimStr m.2) ++ ")").toList))

/-- `convertToStandalone` of the source. -/
def convertToStandalone (content : String) : Option Transformation :=
  match firstMatchM tryComponentDecorator content with
  | none => none
  | some m =>
    if containsStr m.2 "standalone: true" then none
    else
      some { type := .convert_to_standalone,
             description := "Conversion vers composant standalone",
             before := content,
             after := replaceFirstM componentReplacer content,
             status := .pending }

/-- The `inject(...)` declarations accumulated from the constructor
parameters (`serviceMatches.forEach` of the source; re-matching each
match against the same regex reproduces its own two captures). -/
def injectStatementsOf (serviceMatches : List (Nat × (String × String))) : String :=
  String.join (serviceMatches.map
    (fun m => "  private " ++ m.2.1 ++ " = inject(" ++ m.2.2 ++ ");\n"))

/-- Replacement matcher for the first `constructor(...)` match
(`newContent.replace(constructorPattern, newConstructor)`). -/
def constructorReplacer (cs : List Char) : Option (Nat × List Char) :=
  (tryConstructor cs).map
    (fun m => (m.1, ("constructor() " ++ lbStr ++ "\n  " ++ rbStr).toList))

/-- Replacement matcher extending an existing brace import from
`@angular/core` with `inject`. -/
def braceImportReplacer (cs : List Char) : Option (Nat × List Char) :=
  (tryImportBraceCore cs).map
    (fun m => (m.1, ("import " ++ lbStr ++ " " ++ m.2 ++ ", inject " ++ rbStr ++
      " from " ++ sqStr ++ "@angular/core" ++ sqStr).toList))

/-- Replacement matcher appending a fresh `import  inject ` line after
the first `import ... from ... @angular/core` line. -/
def lineImportReplacer (cs : List Char) : Option (Nat × List Char) :=
  (tryImportLineCore cs).map
    (fun len => (len, cs.take len ++ ("\nimport " ++ lbStr ++ " inject " ++ rbStr ++
      " from " ++ sqStr ++ "@angular/core" ++ sqStr ++ ";").toList))

/-- `migrateToInject` of the source. -/
def migrateToInject (content : String) : Option Transformation :=
  match firstMatchM tryConstructor content with
  | none => none
  | some m =>
    let injectionParams := m.2.2
    if !containsStr injectionParams "private" && !containsStr injectionParams "public" then
      none
    else
      let serviceMatches := findAllM tryNameColonType injectionParams
      if serviceMatches.isEmpty then none
      else
        let injectStatements := injectStatementsOf serviceMatches
        let nc1 := replaceFirstM constructorReplacer content
        let nc2 :=
          if containsStr nc1 ("import " ++ lbStr ++ " inject " ++ rbStr) then nc1
          else
            match firstMatchM tryImportBraceCore nc1 with
            | some _ => replaceFirstM braceImportReplacer nc1
            | none =>
              match firstMatchM tryImportLineCore nc1 with
              | some _ => replaceFirstM lineImportReplacer nc1
              | none => nc1
        let nc3 :=
          match firstMatchM tryExportClass nc2 with
          | some _ =>
            replaceFirstM
              (fun cs => (tryExportClass cs).map
                (fun m2 => (m2.1, (m2.2 ++ "\n" ++ injectStatements).toList))) nc2
          | none => nc2
        some { type := .replace_inject,
               description := "Migration vers la fonction inject()",
               before := content, after := nc3, status := .pending }

/-- `migrateToTypedForms` of the source. -/
def migrateToTypedForms (content : String) : Option Transformation :=
  if !containsStr content "FormGroup" && !containsStr content "FormControl" then none
  else
    let c1 := replaceAllM
      (fun cs => (tryCallEmpty "FormGroup" cs).map
        (fun len => (len, "FormGroup<MyFormInterface>()".toList))) content
    let c2 := replaceAllM
      (fun cs => (tryCallEmpty "FormControl" cs).map
        (fun len => (len, "FormControl<string>()".toList))) c1
    if c2 = content then none
    else
      some { type := .update_typed_forms,
             description := "Migration vers les formulaires typés",
             before := content, after := c2, status := .pending }

/-- Global replacement of one literal string by another (the
`new RegExp(lit, g)` of the source on literals without metacharacters). -/
def replaceAllLitStr (needle repl : String) (s : String) : String :=
  replaceAllM (fun cs => (tryLit needle.toList cs).map (fun m => (m.1, repl.toList))) s

/-- `updateImports` of the source. -/
def updateImports (content : String) : Option Transformation :=
  let step := fun (acc : String × Bool) (ft : String × String) =>
    let acc1 :=
      if containsStr acc.1 ("from " ++ sqStr ++ ft.1 ++ sqStr) then
        (replaceAllLitStr ("from " ++ sqStr ++ ft.1 ++ sqStr)
          ("from " ++ sqStr ++ ft.2 ++ sqStr) acc.1, true)
      else acc
    if containsStr acc1.1 ("from " ++ dqStr ++ ft.1 ++ dqStr) then
      (replaceAllLitStr ("from " ++ dqStr ++ ft.1 ++ dqStr)
        ("from " ++ dqStr ++ ft.2 ++ dqStr) acc1.1, true)
    else acc1
  let res := [("@angular/http", "@angular/common/http"), ("rxjs/operators", "rxjs")].foldl
    step (content, false)
  if !res.2 then none
  else
    some { type := .update_imports,
           description := "Mise à jour des imports obsolètes",
           before := content, after := res.1, status := .pending }

/-- The replacement decorator configuration built by
`configureStandaloneService` (`config ? ... : ...` tests for a nonempty
trimmed capture). -/
def mkInjectableConfig (config : String) : String :=
  if config ≠ "" then
    lbStr ++ "\n  providedIn: " ++ sqStr ++ "root" ++ sqStr ++ ",\n  " ++ config ++ "\n" ++ rbStr
  else
    lbStr ++ "\n  providedIn: " ++ sqStr ++ "root" ++ sqStr ++ "\n" ++ rbStr

/-- Replacement matcher used by `configureStandaloneService`. -/
def injectableReplacer (cs : List Char) : Option (Nat × List Char) :=
  (tryInjectableDecorator cs).map
    (fun m => (m.1, ("@Injectable(" ++ mkInjectableConfig (trimStr m.2) ++ ")").toList))

/-- `configureStandaloneService` of the source. -/
def configureStandaloneService (content : String) : Option Transformation :=
  match firstMatchM tryInjectableDecorator content with
  | none => none
  | some m =>
    let config := trimStr m.2
    if containsStr config ("providedIn: " ++ sqStr ++ "root" ++ sqStr) then none
    else
      some { type := .convert_to_standalone,
             description := "Configuration du service en standalone",
             before := content,
             after := replaceFirstM injectableReplacer content,
             status := .pending }

/-- Replacement matcher for `\*ngIf="([^"]+)"` → `@if ($1) {`. -/
def ngIfReplacer (cs : List Char) : Option (Nat × List Char) :=
  (tryNgIfBinding cs).map (fun m => (m.1, ("@if (" ++ m.2 ++ ") " ++ lbStr).toList))

/-- Replacement matcher for the indexed `*ngFor` form (`$index` is
literal text in the replacement: `$i` names no capture group). -/
def ngForIndexReplacer (cs : List Char) : Option (Nat × List Char) :=
  (tryNgForIndex cs).map
    (fun m => (m.1, ("@for (" ++ m.2.1 ++ " of " ++ m.2.2.1 ++ "; track " ++ m.2.1 ++
      "; let " ++ m.2.2.2 ++ " = $index) " ++ lbStr).toList))

/-- Replacement matcher for the plain `*ngFor` form. -/
def ngForSimpleReplacer (cs : List Char) : Option (Nat × List Char) :=
  (tryNgForSimple cs).map
    (fun m => (m.1, ("@for (" ++ m.2.1 ++ " of " ++ m.2.2 ++ "; track " ++ m.2.1 ++
      ") " ++ lbStr).toList))

/-- The `newContent`/`hasChanges` pair threaded by `migrateControlFlow`
(the sequential updates of the source, factored into a helper). -/

def controlFlowState (content : String) : String × Bool :=
  let st1 :=
    if containsStr content "*ngIf" then
      (replaceAllLitStr "</ng-container>" rbStr (replaceAllM ngIfReplacer content), true)
    else (content, false)
  if containsStr st1.1 "*ngFor" then
    (replaceAllM ngForSimpleReplacer (replaceAllM ngForIndexReplacer st1.1), true)
  else st1

/-- `migrateControlFlow` of the source: the `*ngIf` branch also rewrites
every `</ng-container>` to a closing brace; both branches set
`hasChanges` whenever their `includes` test succeeds, even if the
substitutions change nothing. -/
def migrateControlFlow (content : String) : Option Transformation :=
  if !(controlFlowState content).2 then none
  else
    some { type := .update_control_flow,
           description := "Migration vers le nouveau contrôle de flux",
           before := content, after := (controlFlowState content).1, status := .pending }

/-- Step 1 of `transformComponent`: `convertToStandalone` guarded by
a test that the content includes `@Component` and not `standalone: true`. -/
def componentStandaloneRule : Rule := fun content =>
  if containsStr content "@Component" && !containsStr content "standalone: true" then
    convertToStandalone content
  else none

/-- Step 2 of `transformService`: `configureStandaloneService` guarded by
a test that the content includes `@Injectable` and not `providedIn: root` (quoted). -/
def serviceStandaloneRule : Rule := fun content =>
  if containsStr content "@Injectable" &&
      !containsStr content ("providedIn: " ++ sqStr ++ "root" ++ sqStr) then
    configureStandaloneService content
  else none

/-- The ordered rule pipeline of `transformComponent`. -/
def componentRules : List Rule :=
  [componentStandaloneRule, migrateToInject, migrateToTypedForms, updateImports]

/-- The ordered rule pipeline of `transformService`. -/
def serviceRules : List Rule := [migrateToInject, serviceStandaloneRule]

/-- The rule pipeline of `transformTemplate`. -/
def templateRules : List Rule := [migrateControlFlow]

/-- `transformComponent` of the source. -/
def transformComponent (file : AnalyzedFile) : List Transformation :=
  applyRules componentRules file.content

/-- `transformService` of the source. -/
def transformService (file : AnalyzedFile) : List Transformation :=
  applyRules serviceRules file.content

/-- `transformModule` of the source: modules are never rewritten; one
`pending` placeholder record with `before === after` is emitted on every
call. -/
def transformModule (file : AnalyzedFile) : List Transformation :=
  [{ type := .remove_ngmodule,
     description := "Migration du NgModule vers les composants standalone",
     before := file.content, after := file.content, status := .pending }]

/-- `transformTemplate` of the source. -/
def transformTemplate (file : AnalyzedFile) : List Transformation :=
  applyRules templateRules file.content

/-- The fixed Angular-20 dependency targets of `transformPackageJson`. -/
def angularDependencies : List (String × String) :=
  [("@angular/core", "^20.0.0"), ("@angular/common", "^20.0.0"),
   ("@angular/compiler", "^20.0.0"), ("@angular/platform-browser", "^20.0.0"),
   ("@angular/platform-browser-dynamic", "^20.0.0"), ("@angular/router", "^20.0.0"),
   ("@angular/forms", "^20.0.0"), ("@angular/cli", "^20.0.0"),
   ("@angular-devkit/build-angular", "^20.0.0"), ("typescript", "^5.0.0"),
   ("rxjs", "^7.8.0"), ("zone.js", "^0.14.0")]

/-- The obsolete dependencies removed by `transformPackageJson`. -/
def obsoleteDeps : List String := ["@angular/http", "rxjs-compat"]

/-- `if (updated[fieldName] && updated[fieldName][dep]) updated[fieldName][dep] = target`. -/
def updateDepIn (fieldName dep target : String)
    (updated : List (String × Json)) : List (String × Json) :=
  match getField updated fieldName with
  | some (Json.obj dfs) =>
    if truthy ((getField dfs dep).getD Json.null) then
      setField fieldName (Json.obj (setField dep (Json.str target) dfs)) updated
    else updated
  | _ => updated

/-- `if (updated[fieldName] && updated[fieldName][dep]) delete updated[fieldName][dep]`. -/
def removeDepIn (fieldName dep : String)
    (updated : List (String × Json)) : List (String × Json) :=
  match getField updated fieldName with
  | some (Json.obj dfs) =>
    if truthy ((getField dfs dep).getD Json.null) then
      setField fieldName (Json.obj (removeField dfs dep)) updated
    else updated
  | _ => updated

/-- `transformPackageJson` of the source: parse, rewrite the fixed
dependency targets wherever present, delete the obsolete entries,
re-serialize with 2-space indentation.  A parse failure is caught,
logged, and yields zero records. -/
def transformPackageJson (file : AnalyzedFile) : List Transformation :=
  match jsonParse file.content with
  | none => []
  | some packageJson =>
    let updated0 := spreadFields packageJson
    let updated1 := angularDependencies.foldl
      (fun acc dt => updateDepIn "devDependencies" dt.1 dt.2
        (updateDepIn "dependencies" dt.1 dt.2 acc)) updated0
    let updated2 := obsoleteDeps.foldl
      (fun acc dep => removeDepIn "devDependencies" dep
        (removeDepIn "dependencies" dep acc)) updated1
    [{ type := .update_dependencies,
       description := "Mise à jour des dépendances Angular vers la version 20",
       before := file.content,
       after := jsonStringify 0 (Json.obj updated2),
       status := .pending }]

/-- `transformFile` of the source: dispatch on the file type.  The
`options` argument is threaded as in the source but never read by the
rules.  The surrounding `try`/`catch` only matters when a rule throws;
the total rules above never do (the exception path is modelled
separately by `transformFileE`). -/
def transformFile (file : AnalyzedFile) (_options : MigrationOptions) : List Transformation :=
  match file.type with
  | .component => transformComponent file
  | .service => transformService file
  | .module => transformModule file
  | .htmlTemplate => transformTemplate file
  | .packageJson => transformPackageJson file
  | _ => []

end ModernizationTransformer

/-! ## Angular5Analyzer (src/analyzers/Angular5Analyzer.ts) -/

namespace Angular5Analyzer

/-- `getLineNumber` of the source:
splitting the content before the index on newlines, i.e. one plus the
number of newlines before the match index (1-based). -/
def getLineNumber (content : String) (index : Nat) : Nat :=
  ((content.toList.take index).filter (fun c => c = '\n')).length + 1

/-- `s.startsWith(p)` on strings. -/
def startsWithStr (s p : String) : Bool := startsWithChars p.toList s.toList

/-- `analyzeComponent` of the source. -/
def analyzeComponent (file : AnalyzedFile) : List MigrationIssue :=
  let content := file.content
  let ctorIssues := (findAllM tryConstructor content).filterMap
    (fun m =>
      if containsStr m.2.2 "private" || containsStr m.2.2 "public" then
        some { type := .inject_migration, severity := .suggestion,
               message := "Considérez l\u0027utilisation de la fonction inject() pour l\u0027injection de dépendances",
               line := some (getLineNumber content m.1),
               suggestion := some "Remplacer par: constructor() \x7b this.service = inject(MyService); \x7d",
               code := some m.2.1 }
      else none)
  let ngModuleIssues :=
    if containsStr content "@NgModule" then
      [{ type := .standalone_migration, severity := .info,
         message := "Ce composant peut être converti en composant standalone",
         suggestion := some "Ajouter standalone: true et importer les dépendances directement" }]
    else []
  let formGroupIssues := (findAllM
      (fun cs => (tryCallEmpty "FormGroup" cs).map
        (fun len => (len, (cs.take len).asString))) content).map
    (fun m =>
      { type := .typed_forms_migration, severity := .warning,
        message := "FormGroup non typé détecté",
        line := some (getLineNumber content m.1),
        suggestion := some "Utiliser FormGroup<MyFormInterface>() pour une meilleure sécurité de type",
        code := some m.2 })
  ctorIssues ++ ngModuleIssues ++ formGroupIssues

/-- `analyzeService` of the source. -/
def analyzeService (file : AnalyzedFile) : List MigrationIssue :=
  let content := file.content
  let ctorIssues := (findAllM tryConstructor content).filterMap
    (fun m =>
      if containsStr m.2.2 "private" || containsStr m.2.2 "public" then
        some { type := .inject_migration, severity := .suggestion,
               message := "Migration vers inject() recommandée pour ce service",
               line := some (getLineNumber content m.1),
               suggestion := some "Utiliser inject() au lieu de l\u0027injection par constructeur" }
      else none)
  let standaloneIssues :=
    if !containsStr content ("providedIn: " ++ sqStr ++ "root" ++ sqStr) then
      [{ type := .standalone_migration, severity := .info,
         message := "Service non configuré en standalone",
         suggestion := some ("Ajouter providedIn: " ++ sqStr ++ "root" ++ sqStr ++
           " dans le décorateur @Injectable") }]
    else []
  ctorIssues ++ standaloneIssues

/-- `analyzeModule` of the source. -/
def analyzeModule (file : AnalyzedFile) : List MigrationIssue :=
  let content := file.content
  let ngModuleIssues :=
    if containsStr content "@NgModule" then
      [{ type := .standalone_migration, severity := .warning,
         message := "NgModule détecté - migration vers standalone recommandée",
         suggestion := some "Considérez la migration vers les composants standalone pour simplifier l\u0027architecture" }]
    else []
  let importIssues := ["HttpModule", "HttpClientModule", "FormsModule"].filterMap
    (fun importName =>
      if containsStr content importName then
        some { type := .deprecated_api, severity := .warning,
               message := "Import obsolète détecté: " ++ importName,
               suggestion := some ("Vérifiez si " ++ importName ++
                 " est encore nécessaire ou peut être remplacé") }
      else none)
  ngModuleIssues ++ importIssues

/-- `analyzeTemplate` of the source.  The control-flow patterns are the
bare directive markers `\*ngIf`, `\*ngFor`, `\*ngSwitch` (no binding is
captured), so the recorded `code` is the marker text alone. -/
def analyzeTemplate (file : AnalyzedFile) : List MigrationIssue :=
  let content := file.content
  let controlFlowIssues :=
    [("*ngIf", "@if"), ("*ngFor", "@for"), ("*ngSwitch", "@switch")].flatMap
      (fun pr =>
        (findAllM (tryLit pr.1.toList) content).map
          (fun m =>
            { type := .control_flow_migration, severity := .suggestion,
              message := "Directive de contrôle de flux obsolète: " ++ m.2.asString,
              line := some (getLineNumber content m.1),
              suggestion := some ("Remplacer par la nouvelle syntaxe: " ++ pr.2),
              code := some m.2.asString }))
  let pipeIssues := ["async", "json"].flatMap
    (fun p =>
      (findAllM (tryPipe p) content).map
        (fun m =>
          { type := .deprecated_api, severity := .info,
            message := "Pipe potentiellement obsolète: " ++ p,
            line := some (getLineNumber content m.1),
            suggestion := some ("Vérifiez si le pipe " ++ p ++ " est encore nécessaire") }))
  controlFlowIssues ++ pipeIssues

/-- The single issue pushed by the `catch` block of `analyzePackageJson`
(note: no line number). -/
def packageJsonErrorIssue : MigrationIssue :=
  { type := .deprecated_api, severity := .error,
    message := "Erreur lors de l\u0027analyse du package.json",
    suggestion := some "Vérifiez la syntaxe JSON du fichier" }

/-- The obsolete-dependency warnings of `analyzePackageJson`. -/
def obsoleteDependencyIssues (deps : List (String × Json)) : List MigrationIssue :=
  ["@angular/http", "rxjs-compat"].filterMap
    (fun dep =>
      if truthy ((getField deps dep).getD Json.null) then
        some { type := .deprecated_api, severity := .warning,
               message := "Dépendance obsolète: " ++ dep,
               suggestion := some ("Supprimer " ++ dep ++
                 " et migrer vers les alternatives modernes") }
      else none)

/-- `analyzePackageJson` of the source.  A parse failure is caught and
reported as the single error issue.  A truthy non-string
`@angular/core` value makes `.startsWith` raise a `TypeError`, which the
same `catch` turns into the same single issue (nothing was pushed before
the version check). -/
def analyzePackageJson (file : AnalyzedFile) : List MigrationIssue :=
  match jsonParse file.content with
  | none => [packageJsonErrorIssue]
  | some packageJson =>
    let deps := mergeSpread (memberJs packageJson "dependencies")
      (memberJs packageJson "devDependencies")
    match getField deps "@angular/core" with
    | some v =>
      if truthy v then
        match v with
        | .str s =>
          (if !startsWithStr s "5." then
            [{ type := .incompatible_version, severity := .error,
               message := "Version Angular incompatible: " ++ s,
               suggestion := some "Ce projet semble déjà migré ou utilise une version non supportée" }]
          else []) ++ obsoleteDependencyIssues deps
        | _ => [packageJsonErrorIssue]
      else obsoleteDependencyIssues deps
    | none => obsoleteDependencyIssues deps

/-- `analyzeGeneral` of the source (the fallback rule set for
unclassified file types). -/
def analyzeGeneral (file : AnalyzedFile) : List MigrationIssue :=
  let content := file.content
  ["@angular/http", "rxjs/operators"].filterMap
    (fun importPath =>
      if containsStr content ("from " ++ sqStr ++ importPath ++ sqStr) ||
          containsStr content ("from " ++ dqStr ++ importPath ++ dqStr) then
        some { type := .deprecated_api, severity := .warning,
               message := "Import obsolète: " ++ importPath,
               suggestion := some ("Migrer vers les alternatives modernes pour " ++ importPath) }
      else none)

/-- `analyzeFile` of the source: role dispatch on the file type.  The
surrounding `try`/`catch` never fires for these total rule bodies. -/
def analyzeFile (file : AnalyzedFile) : List MigrationIssue :=
  match file.type with
  | .component => analyzeComponent file
  | .service => analyzeService file
  | .module => analyzeModule file
  | .htmlTemplate => analyzeTemplate file
  | .packageJson => analyzePackageJson file
  | _ => analyzeGeneral file

end Angular5Analyzer

/-! ## ProjectAnalyzer (src/analyzers/ProjectAnalyzer.ts)

Filesystem enumeration (`glob.sync`) and reading are I/O; the discovered
files enter the embedding as a list of `(relative path, content)` pairs,
already ordered as the pattern loop of the source produces them.  Files
whose read failed are dropped by the per-file `catch` and simply do
not appear in the list. -/

namespace ProjectAnalyzer

/-- Node `path.basename` (POSIX separator, as used by the source). -/
def basename (p : String) : String :=
  match lastIdxOf '/' p.toList with
  | some i => (p.toList.drop (i + 1)).asString
  | none => p

/-- Node `path.extname`: from the last dot of the basename, unless that
dot is its first character. -/
def extname (p : String) : String :=
  let b := (basename p).toList
  match lastIdxOf '.' b with
  | some i => if i = 0 then "" else (b.drop i).asString
  | none => ""

/-- `determineFileType` of the source.  The `content` parameter is
declared by the source but never read — classification depends only on
the basename and extension. -/
def determineFileType (filePath : String) (_content : String) : FileType :=
  let fileName := basename filePath
  let extension := extname filePath
  if fileName = "package.json" then .packageJson
  else if fileName = "angular.json" then .angularJson
  else if fileName = "tsconfig.json" then .tsconfig
  else if extension = ".ts" then
    (if containsStr fileName ".component." then .component
     else if containsStr fileName ".service." then .service
     else if containsStr fileName ".module." then .module
     else if containsStr fileName ".routing." then .routing
     else .other)
  else if extension = ".html" then .htmlTemplate
  else if extension = ".css" then .cssStyle
  else if extension = ".scss" then .scssStyle
  else .other

/-- `analyzeFile` of the source: build the `AnalyzedFile` record for one
discovered `(path, content)` pair, with empty issue and transformation
lists. -/
def analyzeFile (filePath content : String) : AnalyzedFile :=
  { path := filePath,
    type := determineFileType filePath content,
    content := content,
    issues := [],
    transformations := [] }

/-- `analyzeProjectFiles` of the source over the discovered pairs.  The
source has no emptiness check: an empty discovery list yields an empty
file list, not an error. -/
def analyzeProjectFiles (entries : List (String × String)) : List AnalyzedFile :=
  entries.map (fun e => analyzeFile e.1 e.2)

end ProjectAnalyzer

/-! ## BackendAgnosticMigrationEngine (src/core/BackendAgnosticMigrationEngine.ts)

The filesystem interactions of `migrateProject` appear as parameters:
`angularPaths` is the result of `findAngularDirectories` (the Angular
project directories located under the given root), `currentVersion` the
version string extracted from the manifest by `ProjectAnalyzer.analyze`,
`entries` the `(path, content)` pairs discovered by
`analyzeProjectFiles`, and `backendType` the label produced by
`detectBackendType`.  Report rendering (`options.generateReport`) and
logging are I/O side effects with no influence on the returned report. -/

namespace BackendAgnosticMigrationEngine

open ModernizationTransformer Angular5Analyzer ProjectAnalyzer

/-- `shouldProcessFile` of the source: a file is transformed only when
its path matches no exclude pattern and, if the include list is
nonempty, matches at least one include pattern (substring matching). -/
def shouldProcessFile (file : AnalyzedFile) (options : MigrationOptions) : Bool :=
  if options.excludeList.any (fun pattern => containsStr file.path pattern) then false
  else if decide (0 < options.includeList.length) &&
      !options.includeList.any (fun pattern => containsStr file.path pattern) then false
  else true

/-- `detectAngular5Patterns` of the source: every file of the project
gets the issues of the analyzer appended, regardless of any option. -/
def detectAngular5Patterns (files : List AnalyzedFile) : List AnalyzedFile :=
  files.map (fun file => { file with issues := file.issues ++ Angular5Analyzer.analyzeFile file })

/-- `applyAngularTransformations` of the source: only files passing
`shouldProcessFile` get the records of the transformer appended. -/
def applyAngularTransformations (files : List AnalyzedFile) (options : MigrationOptions) :
    List AnalyzedFile :=
  files.map (fun file =>
    if shouldProcessFile file options then
      { file with transformations :=
          file.transformations ++ ModernizationTransformer.transformFile file options }
    else file)

/-- `calculateSummary` of the source. -/
def calculateSummary (project : AngularProject) : MigrationSummary :=
  { totalFiles := project.files.length,
    modifiedFiles :=
      (project.files.filter (fun f => decide (0 < f.transformations.length))).length,
    totalIssues := project.files.foldl (fun sum f => sum + f.issues.length) 0,
    appliedTransformations := project.files.foldl
      (fun sum f => sum +
        (f.transformations.filter
          (fun t => decide (t.status = TransformationStatus.applied))).length) 0,
    failedTransformations := project.files.foldl
      (fun sum f => sum +
        (f.transformations.filter
          (fun t => decide (t.status = TransformationStatus.failed))).length) 0 }

/-- `generateRecommendations` of the source. -/
def generateRecommendations (project : AngularProject) (backendType : String) : List String :=
  let r1 :=
    if project.files.any (fun f => decide (f.type = FileType.module)) then
      ["Considérez la migration vers les composants standalone pour simplifier l\u0027architecture"]
    else []
  let r2 :=
    if project.files.any (fun f => containsStr f.content "*ngIf" || containsStr f.content "*ngFor") then
      ["Migrez vers le nouveau contrôle de flux (@if, @for) pour de meilleures performances"]
    else []
  let r3 :=
    if project.files.any (fun f => containsStr f.content "FormGroup" && !containsStr f.content "FormGroup<") then
      ["Ajoutez des types stricts aux formulaires réactifs pour une meilleure sécurité de type"]
    else []
  let rb :=
    if backendType = "Java" then
      ["Vérifiez la compatibilité des endpoints REST avec Spring Boot 3+",
       "Considérez l\u0027utilisation de Spring WebFlux pour la réactivité"]
    else if backendType = "Python" then
      ["Vérifiez la compatibilité avec FastAPI ou Django REST Framework",
       "Considérez l\u0027utilisation d\u0027async/await pour les performances"]
    else if backendType = "Node.js" then
      ["Vérifiez la compatibilité avec Express.js ou NestJS",
       "Considérez l\u0027utilisation de TypeScript côté backend"]
    else if backendType = ".NET" then
      ["Vérifiez la compatibilité avec ASP.NET Core 6+",
       "Considérez l\u0027utilisation de Minimal APIs"]
    else []
  r1 ++ r2 ++ r3 ++ rb ++
    ["Implémentez CORS correctement pour la communication frontend-backend",
     "Utilisez HTTPS en production pour toutes les communications",
     "Implémentez une authentification JWT ou OAuth2"]

/-- `generateReport` of the source (`processingTime` is the literal `0`
of the source; `executionTime` is wall-clock I/O, modelled as 0). -/
def generateReport (project : AngularProject) (options : MigrationOptions)
    (backendType : String) : MigrationReport :=
  { project := project,
    options := options,
    summary := calculateSummary project,
    fileDetails := project.files.map
      (fun file =>
        { file := file, issues := file.issues,
          transformations := file.transformations, processingTime := 0 }),
    errors := [],
    recommendations := generateRecommendations project backendType,
    executionTime := 0 }

/-- `migrateProject` of the source.  `analyzeAngularProject` throws
(fatal, re-raised to the caller) exactly when `findAngularDirectories`
found no Angular project directory; otherwise detection always runs,
transformation runs unless the mode is `analyze`, and the report is
built from the resulting files. -/
def migrateProject (angularPaths : List String) (currentVersion : String)
    (entries : List (String × String)) (options : MigrationOptions)
    (backendType : String) : Except String MigrationReport :=
  if angularPaths.isEmpty then
    Except.error "Aucun projet Angular trouvé dans le répertoire"
  else
    let files0 := ProjectAnalyzer.analyzeProjectFiles entries
    let files1 := detectAngular5Patterns files0
    let files2 :=
      if options.mode ≠ MigrationMode.analyze then
        applyAngularTransformations files1 options
      else files1
    let project : AngularProject :=
      { path := angularPaths.headD "", currentVersion := currentVersion,
        targetVersion := "20.0.0", files := files2 }
    Except.ok (generateReport project options backendType)

end BackendAgnosticMigrationEngine

/-! ## The exception path of `transformFile`

In the source every rule body may raise (JavaScript exceptions).  The
`try` of `transformFile` wraps the whole dispatch: the per-branch local
record array is lost when a rule throws, and the `catch` logs the error
and returns an **empty** list.  The rules are modelled as
`Except`-valued functions here; `liftRuleE` and
`applyRulesE_liftRuleE_eq` connect the exception-free case back to
`transformFile`. -/

namespace ModernizationTransformer

/-- A rule that may raise: current content in, an error or an optional
record out. -/
def RuleE : Type := String → Except String (Option Transformation)

/-- Sequential application of possibly-raising rules, as inside one
branch of `transformFile`: records accumulated before a raise are
abandoned together with the whole branch result. -/
def applyRulesE : List RuleE → String → Except String (List Transformation)
  | [], _ => Except.ok []
  | r :: rs, c =>
    match r c with
    | Except.error e => Except.error e
    | Except.ok none => applyRulesE rs c
    | Except.ok (some t) =>
      match applyRulesE rs t.after with
      | Except.error e => Except.error e
      | Except.ok ts => Except.ok (t :: ts)

/-- The `try`/`catch` of `transformFile` around one dispatch branch: on
an exception the error is logged and the empty list is returned. -/
def transformFileE (rulesOf : FileType → List RuleE) (file : AnalyzedFile) :
    List Transformation :=
  match applyRulesE (rulesOf file.type) file.content with
  | Except.ok ts => ts
  | Except.error _ => []

/-- A rule that never raises. -/
def liftRuleE (r : Rule) : RuleE := fun c => Except.ok (r c)

/-- Modelled from the spec: "the file's transformation list reflects
only the records produced before the failure" — the records the rules
emitted before the first raising rule (the missing part is the
spec-mandated partial-keep semantics, which no code of the repository
implements). -/
def recordsBeforeFailure : List RuleE → String → List Transformation
  | [], _ => []
  | r :: rs, c =>
    match r c with
    | Except.error _ => []
    | Except.ok none => recordsBeforeFailure rs c
    | Except.ok (some t) => t :: recordsBeforeFailure rs t.after

/-- With exception-free rules, the branch body returns exactly the
records of `applyRules`. -/
theorem applyRulesE_liftRuleE_eq (rules : List Rule) (c : String) :
    applyRulesE (rules.map liftRuleE) c = Except.ok (applyRules rules c) := by
  induction rules generalizing c with
  | nil => rfl
  | cons r rs ih =>
    simp only [List.map, applyRulesE, applyRules, liftRuleE]
    cases r c with
    | none => exact ih c
    | some t =>
      dsimp only
      rw [ih t.after]

end ModernizationTransformer

/-! ## Chaining and status invariants of the rule pipeline -/

namespace ModernizationTransformer

/-- Ledger property of a record list: the first record snapshots `c` in
`before`, and each later record snapshots the `after` of its
predecessor. -/
def ChainedFrom (c : String) : List Transformation → Prop
  | [] => True
  | t :: ts => t.before = c ∧ ChainedFrom t.after ts

/-- A rule is faithful when any record it emits snapshots its input in
`before` and is created with `pending` status. -/
def RuleFaithful (r : Rule) : Prop :=
  ∀ c t, r c = some t → t.before = c ∧ t.status = TransformationStatus.pending

theorem convertToStandalone_faithful : RuleFaithful convertToStandalone := by
  intro c t h
  unfold convertToStandalone at h
  split at h
  next => exact absurd h (by simp)
  next =>
    split at h
    next => exact absurd h (by simp)
    next =>
      rw [Option.some.injEq] at h
      subst h
      exact ⟨rfl, rfl⟩

theorem migrateToInject_faithful : RuleFaithful migrateToInject := by
  intro c t h
  unfold migrateToInject at h
  split at h
  next => exact absurd h (by simp)
  next =>
    dsimp only at h
    split at h
    next => exact absurd h (by simp)
    next =>
      split at h
      next => exact absurd h (by simp)
      next =>
        rw [Option.some.injEq] at h
        subst h
        exact ⟨rfl, rfl⟩

theorem migrateToTypedForms_faithful : RuleFaithful migrateToTypedForms := by
  intro c t h
  unfold migrateToTypedForms at h
  split at h
  next => exact absurd h (by simp)
  next =>
    dsimp only at h
    split at h
    next => exact absurd h (by simp)
    next =>
      rw [Option.some.injEq] at h
      subst h
      exact ⟨rfl, rfl⟩

theorem updateImports_faithful : RuleFaithful updateImports := by
  intro c t h
  unfold updateImports at h
  dsimp only at h
  split at h
  next => exact absurd h (by simp)
  next =>
    rw [Option.some.injEq] at h
    subst h
    exact ⟨rfl, rfl⟩

theorem configureStandaloneService_faithful : RuleFaithful configureStandaloneService := by
  intro c t h
  unfold configureStandaloneService at h
  split at h
  next => exact absurd h (by simp)
  next =>
    dsimp only at h
    split at h
    next => exact absurd h (by simp)
    next =>
      rw [Option.some.injEq] at h
      subst h
      exact ⟨rfl, rfl⟩

theorem migrateControlFlow_faithful : RuleFaithful migrateControlFlow := by
  intro c t h
  unfold migrateControlFlow at h
  split at h
  next => exact absurd h (by simp)
  next =>
    rw [Option.some.injEq] at h
    subst h
    exact ⟨rfl, rfl⟩

theorem componentStandaloneRule_faithful : RuleFaithful componentStandaloneRule := by
  intro c t h
  unfold componentStandaloneRule at h
  split at h
  · exact convertToStandalone_faithful c t h
  · simp_all

theorem serviceStandaloneRule_faithful : RuleFaithful serviceStandaloneRule := by
  intro c t h
  unfold serviceStandaloneRule at h
  split at h
  · exact configureStandaloneService_faithful c t h
  · simp_all

theorem componentRules_faithful : ∀ r ∈ componentRules, RuleFaithful r := by
  intro r hr
  simp only [componentRules, List.mem_cons, List.not_mem_nil, or_false] at hr
  rcases hr with h | h | h | h <;> subst h
  · exact componentStandaloneRule_faithful
  · exact migrateToInject_faithful
  · exact migrateToTypedForms_faithful
  · exact updateImports_faithful

theorem serviceRules_faithful : ∀ r ∈ serviceRules, RuleFaithful r := by
  intro r hr
  simp only [serviceRules, List.mem_cons, List.not_mem_nil, or_false] at hr
  rcases hr with h | h <;> subst h
  · exact migrateToInject_faithful
  · exact serviceStandaloneRule_faithful

theorem templateRules_faithful : ∀ r ∈ templateRules, RuleFaithful r := by
  intro r hr
  simp only [templateRules, List.mem_cons, List.not_mem_nil, or_false] at hr
  subst hr
  exact migrateControlFlow_faithful

/-- Faithful rules produce a chained ledger from the initial content. -/
theorem applyRules_chainedFrom :
    ∀ (rules : List Rule), (∀ r ∈ rules, RuleFaithful r) →
      ∀ c, ChainedFrom c (applyRules rules c) := by
  intro rules
  induction rules with
  | nil => intro _ c; trivial
  | cons r rs ih =>
    intro h c
    have hr : RuleFaithful r := h r (List.mem_cons_self r rs)
    have hrs : ∀ r2 ∈ rs, RuleFaithful r2 := fun r2 hm => h r2 (List.mem_cons_of_mem r hm)
    simp only [applyRules]
    cases hrc : r c with
    | none => exact ih hrs c
    | some t => exact ⟨(hr c t hrc).1, ih hrs t.after⟩

/-- Faithful rules only emit `pending` records. -/
theorem applyRules_pending :
    ∀ (rules : List Rule), (∀ r ∈ rules, RuleFaithful r) →
      ∀ c t, t ∈ applyRules rules c → t.status = TransformationStatus.pending := by
  intro rules
  induction rules with
  | nil => intro _ c t hm; simp [applyRules] at hm
  | cons r rs ih =>
    intro h c t hm
    have hr : RuleFaithful r := h r (List.mem_cons_self r rs)
    have hrs : ∀ r2 ∈ rs, RuleFaithful r2 := fun r2 hmm => h r2 (List.mem_cons_of_mem r hmm)
    simp only [applyRules] at hm
    cases hrc : r c with
    | none =>
      rw [hrc] at hm
      exact ih hrs c t hm
    | some u =>
      rw [hrc] at hm
      rcases List.mem_cons.mp hm with h1 | h1
      · subst h1; exact (hr c t hrc).2
      · exact ih hrs u.after t h1

/-- Extracting the index form of the chaining property. -/
theorem chainedFrom_get :
    ∀ (ts : List Transformation) (c : String), ChainedFrom c ts →
      ∀ i (h2 : i + 1 < ts.length),
        (ts.get ⟨i, Nat.lt_of_succ_lt h2⟩).after = (ts.get ⟨i + 1, h2⟩).before := by
  intro ts
  induction ts with
  | nil => intro c _ i h2; simp at h2
  | cons t ts ih =>
    intro c hc i h2
    cases i with
    | zero =>
      cases ts with
      | nil => simp at h2
      | cons u us => exact (hc.2.1).symm
    | succ j => exact ih t.after hc.2 j (Nat.lt_of_succ_lt_succ h2)

/-- `transformFile` always yields a ledger chained from the current file
content, whatever the file type. -/
theorem transformFile_chainedFrom (file : AnalyzedFile) (options : MigrationOptions) :
    ChainedFrom file.content (transformFile file options) := by
  obtain ⟨p, ty, co, iss, trs⟩ := file
  cases ty with
  | component => exact applyRules_chainedFrom componentRules componentRules_faithful co
  | service => exact applyRules_chainedFrom serviceRules serviceRules_faithful co
  | htmlTemplate => exact applyRules_chainedFrom templateRules templateRules_faithful co
  | module => exact ⟨rfl, trivial⟩
  | packageJson =>
    show ChainedFrom co (transformPackageJson ⟨p, .packageJson, co, iss, trs⟩)
    unfold transformPackageJson
    split
    · trivial
    · exact ⟨rfl, trivial⟩
  | routing => trivial
  | angularJson => trivial
  | tsconfig => trivial
  | cssStyle => trivial
  | scssStyle => trivial
  | other => trivial

/-- Every record `transformFile` emits has `pending` status, whatever
the file type. -/
theorem transformFile_pending (file : AnalyzedFile) (options : MigrationOptions) :
    ∀ t ∈ transformFile file options, t.status = TransformationStatus.pending := by
  obtain ⟨p, ty, co, iss, trs⟩ := file
  cases ty with
  | component => exact fun t hm => applyRules_pending componentRules componentRules_faithful co t hm
  | service => exact fun t hm => applyRules_pending serviceRules serviceRules_faithful co t hm
  | htmlTemplate => exact fun t hm => applyRules_pending templateRules templateRules_faithful co t hm
  | module =>
    intro t hm
    simp only [transformFile, transformModule, List.mem_singleton] at hm
    subst hm; rfl
  | packageJson =>
    intro t hm
    show t.status = TransformationStatus.pending
    simp only [transformFile, transformPackageJson] at hm
    split at hm
    · simp at hm
    · simp only [List.mem_singleton] at hm
      subst hm; rfl
  | routing => intro t hm; simp [transformFile] at hm
  | angularJson => intro t hm; simp [transformFile] at hm
  | tsconfig => intro t hm; simp [transformFile] at hm
  | cssStyle => intro t hm; simp [transformFile] at hm
  | scssStyle => intro t hm; simp [transformFile] at hm
  | other => intro t hm; simp [transformFile] at hm

end ModernizationTransformer

/-! ## Claim fixtures -/

/-- A plain `migrate`-mode option set with no filters. -/
def migrateOpts : MigrationOptions :=
  { mode := .migrate, backup := false, autoApply := false, excludeList := [],
    includeList := [], verbose := false, generateReport := false }

/-- The content after one transformer run, per the double-run protocol of
the idempotence property: the content of the file is replaced by the
`after` of the last record (unchanged when no record was emitted). -/
def lastAfter (c : String) (ts : List Transformation) : String :=
  match ts.getLast? with
  | some t => t.after
  | none => c

/-- The records emitted by a second `transformFile` run, after the file
content has been updated with the outcome of the first run. -/
def secondRunRecords (file : AnalyzedFile) (options : MigrationOptions) :
    List Transformation :=
  ModernizationTransformer.transformFile
    { file with
      content := lastAfter file.content (ModernizationTransformer.transformFile file options) }
    options

/-- A module-descriptor file. -/
def moduleWitnessFile : AnalyzedFile :=
  { path := "app.module.ts", type := .module, content := "x",
    issues := [], transformations := [] }

/-- The placeholder record `transformModule` emits for `moduleWitnessFile`. -/
def modulePlaceholderT : Transformation :=
  { type := .remove_ngmodule,
    description := "Migration du NgModule vers les composants standalone",
    before := "x", after := "x", status := .pending }

/-- A component on which two pipeline rules fire in order
(standalone conversion, then typed forms). -/
def chainWitnessFile : AnalyzedFile :=
  { path := "a.component.ts", type := .component,
    content := "@Component(\x7ba\x7d) FormGroup()", issues := [], transformations := [] }

/-- A dependency manifest whose content is not valid JSON. -/
def badManifestFile : AnalyzedFile :=
  { path := "package.json", type := .packageJson, content := "not json",
    issues := [], transformations := [] }

/-- A template holding exactly one legacy conditional directive with a
binding. -/
def c6file : AnalyzedFile :=
  { path := "app.component.html", type := .htmlTemplate,
    content := "<div *ngIf=\x22cond\x22>ok</div>", issues := [], transformations := [] }

/-- A rule that succeeds and emits one record. -/
def c4okRule : ModernizationTransformer.RuleE := fun c =>
  Except.ok (some { type := .update_imports, description := "r1",
                    before := c, after := c ++ "!", status := .pending })

/-- A rule that raises. -/
def c4boomRule : ModernizationTransformer.RuleE := fun _ => Except.error "boom"

/-- A rule table whose pipeline emits one record and then raises. -/
def c4rulesOf : FileType → List ModernizationTransformer.RuleE :=
  fun _ => [c4okRule, c4boomRule]

/-- The file fed to the raising pipeline. -/
def c4file : AnalyzedFile :=
  { path := "a.component.ts", type := .component, content := "x",
    issues := [], transformations := [] }

/-! ## Claim theorems -/

/-- C1 (amended): transformer idempotence fails for module-descriptor
files.  For any file of module type, each `transformFile` run emits
exactly one pending placeholder record with `before = after = content`,
so after updating the content with the outcome of the first run (which
leaves it identical), the second run emits one record — not zero. -/
theorem C1_module_placeholder_every_run (file : AnalyzedFile) (options : MigrationOptions)
    (h : file.type = FileType.module) :
    lastAfter file.content (ModernizationTransformer.transformFile file options) = file.content ∧
    (secondRunRecords file options).length = 1 := by
  obtain ⟨p, ty, co, iss, trs⟩ := file
  dsimp only at h
  subst h
  exact ⟨rfl, rfl⟩

/-- Witness for C1 at a concrete module file. -/
theorem C1_module_placeholder_every_run_witness :
    lastAfter moduleWitnessFile.content
        (ModernizationTransformer.transformFile moduleWitnessFile migrateOpts) =
      moduleWitnessFile.content ∧
    (secondRunRecords moduleWitnessFile migrateOpts).length = 1 :=
  C1_module_placeholder_every_run moduleWitnessFile migrateOpts rfl

/-- Counterexample for C1 as stated: on a module file the second
pipeline run does not emit zero records. -/
theorem C1_second_run_emits_records :
    secondRunRecords moduleWitnessFile migrateOpts ≠ [] := by decide

/-- C2 (chaining invariant): in the record sequence of one
`transformFile` call, the `after` of each record equals the `before` of
the next. -/
theorem C2_transformFile_chains (file : AnalyzedFile) (options : MigrationOptions)
    (i : Nat) (h : i + 1 < (ModernizationTransformer.transformFile file options).length) :
    ((ModernizationTransformer.transformFile file options).get
        ⟨i, Nat.lt_of_succ_lt h⟩).after =
      ((ModernizationTransformer.transformFile file options).get ⟨i + 1, h⟩).before :=
  ModernizationTransformer.chainedFrom_get _ file.content
    (ModernizationTransformer.transformFile_chainedFrom file options) i h

set_option maxRecDepth 4096 in
/-- Witness for C2 at a component whose pipeline emits two records. -/
theorem C2_transformFile_chains_witness :
    ((ModernizationTransformer.transformFile chainWitnessFile migrateOpts).get
        ⟨0, by decide⟩).after =
      ((ModernizationTransformer.transformFile chainWitnessFile migrateOpts).get
        ⟨1, by decide⟩).before :=
  C2_transformFile_chains chainWitnessFile migrateOpts 0 (by decide)

/-- C4 (amended): when a rule raises inside the transformation pipeline,
the per-file `catch` of `transformFile` returns the empty list — the
records produced by the rules that completed before the failure are
discarded, not kept (the error becomes a log entry and the run
continues with the other files). -/
theorem C4_exception_discards_all_records
    (rulesOf : FileType → List ModernizationTransformer.RuleE) (file : AnalyzedFile)
    (e : String)
    (h : ModernizationTransformer.applyRulesE (rulesOf file.type) file.content =
      Except.error e) :
    ModernizationTransformer.transformFileE rulesOf file = [] := by
  unfold ModernizationTransformer.transformFileE
  rw [h]

/-- Witness for C4 at the concrete raising pipeline. -/
theorem C4_exception_discards_all_records_witness :
    ModernizationTransformer.transformFileE c4rulesOf c4file = [] :=
  C4_exception_discards_all_records c4rulesOf c4file "boom" rfl

/-- Counterexample for C4 as stated: the pipeline that emits one record
and then raises yields an empty transformation list, not the singleton
list of records produced before the failure. -/
theorem C4_partial_records_not_kept :
    ModernizationTransformer.recordsBeforeFailure (c4rulesOf c4file.type) c4file.content =
      [{ type := .update_imports, description := "r1", before := "x", after := "x!",
         status := .pending }] ∧
    ModernizationTransformer.transformFileE c4rulesOf c4file ≠
      ModernizationTransformer.recordsBeforeFailure (c4rulesOf c4file.type) c4file.content :=
  ⟨rfl, by decide⟩

/-- C5 (amended): the fatal discovery error is raised exactly when no
Angular project directory was found; `run` then returns no report. -/
theorem C5_no_angular_directory_is_fatal (currentVersion : String)
    (entries : List (String × String)) (options : MigrationOptions) (backendType : String) :
    BackendAgnosticMigrationEngine.migrateProject [] currentVersion entries options
      backendType = Except.error "Aucun projet Angular trouvé dans le répertoire" := rfl

/-- Counterexample for C5 as stated: with an Angular directory present
but an empty analyzed-file list, `run` returns a normal report whose
`summary.totalFiles` is 0 instead of raising. -/
theorem C5_empty_file_list_returns_report :
    (BackendAgnosticMigrationEngine.migrateProject ["frontend"] "5.0.0" [] migrateOpts
        "Java").toOption.map (fun r => r.summary.totalFiles) = some 0 := rfl

/-- C6 (amended): for the template with exactly one bound legacy
conditional directive, `detect` returns one suggestion-severity
control-flow issue whose `matchedText` is the bare marker text `*ngIf`
(not the full directive with its binding), and `transform` produces one
record whose `after` contains the block form `@if (cond) `-brace. -/
theorem C6_template_scenario :
    (Angular5Analyzer.analyzeFile c6file).map (fun i => (i.severity, i.type, i.code)) =
      [(IssueSeverity.suggestion, IssueType.control_flow_migration, some "*ngIf")] ∧
    (ModernizationTransformer.transformFile c6file migrateOpts).map
      (fun t => containsStr t.after "@if (cond) \x7b") = [true] :=
  ⟨rfl, rfl⟩

/-- Counterexample for C6 as stated: the recorded `matchedText` of the
single detected issue is `*ngIf`, which is not the full matched
directive text with its binding. -/
theorem C6_matchedText_lacks_binding :
    (Angular5Analyzer.analyzeFile c6file).map (fun i => i.code) = [some "*ngIf"] ∧
    ("*ngIf" : String) ≠ "*ngIf=\x22cond\x22" :=
  ⟨rfl, by decide⟩

/-- C8: for every dependency-manifest file whose content is not valid
JSON, detection returns exactly one error-severity issue with no line
number, and transformation returns zero records. -/
theorem C8_manifest_parse_failure (file : AnalyzedFile) (options : MigrationOptions)
    (htype : file.type = FileType.packageJson) (hparse : jsonParse file.content = none) :
    Angular5Analyzer.analyzeFile file = [Angular5Analyzer.packageJsonErrorIssue] ∧
    Angular5Analyzer.packageJsonErrorIssue.severity = IssueSeverity.error ∧
    Angular5Analyzer.packageJsonErrorIssue.line = none ∧
    ModernizationTransformer.transformFile file options = [] := by
  obtain ⟨p, ty, co, iss, trs⟩ := file
  dsimp only at htype hparse
  subst htype
  refine ⟨?_, rfl, rfl, ?_⟩
  · show Angular5Analyzer.analyzePackageJson _ = _
    unfold Angular5Analyzer.analyzePackageJson
    rw [hparse]
  · show ModernizationTransformer.transformPackageJson _ = _
    unfold ModernizationTransformer.transformPackageJson
    rw [hparse]

/-- Witness for C8 at a concrete invalid manifest. -/
theorem C8_manifest_parse_failure_witness :
    Angular5Analyzer.analyzeFile badManifestFile = [Angular5Analyzer.packageJsonErrorIssue] ∧
    Angular5Analyzer.packageJsonErrorIssue.severity = IssueSeverity.error ∧
    Angular5Analyzer.packageJsonErrorIssue.line = none ∧
    ModernizationTransformer.transformFile badManifestFile migrateOpts = [] :=
  C8_manifest_parse_failure badManifestFile migrateOpts rfl rfl

/-- C9: `determineFileType` never reads the content argument — the
classification depends only on the path — and the empty path with empty
content classifies as `other` (the default tag of the closed set). -/
theorem C9_classification_ignores_content :
    (∀ path c1 c2, ProjectAnalyzer.determineFileType path c1 =
      ProjectAnalyzer.determineFileType path c2) ∧
    ProjectAnalyzer.determineFileType "" "" = FileType.other :=
  ⟨fun _ _ _ => rfl, rfl⟩

/-! ## Engine-level lemmas -/

/-- Folding `sum + g x` over a list totals the sum of the images. -/
theorem foldl_add_map {α : Type} (g : α → Nat) :
    ∀ (l : List α) (n : Nat), l.foldl (fun sum x => sum + g x) n = n + (l.map g).sum := by
  intro l
  induction l with
  | nil => intro n; simp
  | cons x xs ih =>
    intro n
    simp only [List.foldl_cons, List.map_cons, List.sum_cons, ih, Nat.add_assoc]

namespace BackendAgnosticMigrationEngine

/-- Files produced by discovery followed by detection carry no
transformation records. -/
theorem detect_discovered_transformations_nil (entries : List (String × String)) :
    ∀ f ∈ detectAngular5Patterns (ProjectAnalyzer.analyzeProjectFiles entries),
      f.transformations = [] := by
  intro f hf
  simp only [detectAngular5Patterns, ProjectAnalyzer.analyzeProjectFiles,
    List.map_map, List.mem_map] at hf
  obtain ⟨e, _, rfl⟩ := hf
  rfl

/-- After the transform step, every record of every file has `pending`
status, provided the inputs carried none. -/
theorem applyAngularTransformations_pending (files : List AnalyzedFile)
    (options : MigrationOptions) (hnil : ∀ f ∈ files, f.transformations = []) :
    ∀ f ∈ applyAngularTransformations files options,
      ∀ t ∈ f.transformations, t.status = TransformationStatus.pending := by
  intro f hf t ht
  simp only [applyAngularTransformations, List.mem_map] at hf
  obtain ⟨g, hg, rfl⟩ := hf
  by_cases hs : shouldProcessFile g options = true
  · rw [if_pos hs] at ht
    simp only at ht
    rw [hnil g hg, List.nil_append] at ht
    exact ModernizationTransformer.transformFile_pending g options t ht
  · rw [if_neg hs] at ht
    rw [hnil g hg] at ht
    simp at ht

/-- The issue lists are untouched by the transform step. -/
theorem applyAngularTransformations_issues (files : List AnalyzedFile)
    (options : MigrationOptions) :
    (applyAngularTransformations files options).map (fun f => f.issues) =
      files.map (fun f => f.issues) := by
  unfold applyAngularTransformations
  rw [List.map_map]
  apply List.map_congr_left
  intro f _
  by_cases hs : shouldProcessFile f options = true
  · simp [hs]
  · simp [hs]

/-- The issue list of every file after discovery and detection is
exactly the analyzer output for that file. -/
theorem detect_discovered_issues (entries : List (String × String)) :
    (detectAngular5Patterns (ProjectAnalyzer.analyzeProjectFiles entries)).map
        (fun f => f.issues) =
      (ProjectAnalyzer.analyzeProjectFiles entries).map Angular5Analyzer.analyzeFile := by
  unfold detectAngular5Patterns
  rw [List.map_map]
  apply List.map_congr_left
  intro f hf
  simp only [ProjectAnalyzer.analyzeProjectFiles, List.mem_map] at hf
  obtain ⟨e, _, rfl⟩ := hf
  rfl

/-- The transformation list of every file after the transform step is
the transformer output when the filter admits the file and empty
otherwise. -/
theorem applyAngularTransformations_transformations (files : List AnalyzedFile)
    (options : MigrationOptions) (hnil : ∀ f ∈ files, f.transformations = []) :
    (applyAngularTransformations files options).map (fun f => f.transformations) =
      files.map (fun f =>
        if shouldProcessFile f options then
          ModernizationTransformer.transformFile f options
        else []) := by
  unfold applyAngularTransformations
  rw [List.map_map]
  apply List.map_congr_left
  intro f hf
  dsimp only [Function.comp]
  by_cases hs : shouldProcessFile f options = true
  · rw [if_pos hs, if_pos hs]
    dsimp only
    rw [hnil f hf, List.nil_append]
  · rw [if_neg hs, if_neg hs]
    exact hnil f hf

/-- Projecting the issue lists out of the report details recovers the
per-file issue lists. -/
theorem generateReport_issues_map (project : AngularProject) (options : MigrationOptions)
    (backendType : String) :
    (generateReport project options backendType).fileDetails.map (fun fd => fd.issues) =
      project.files.map (fun f => f.issues) := by
  show (project.files.map _).map _ = _
  rw [List.map_map]
  rfl

/-- Projecting the transformation lists out of the report details
recovers the per-file transformation lists. -/
theorem generateReport_transformations_map (project : AngularProject)
    (options : MigrationOptions) (backendType : String) :
    (generateReport project options backendType).fileDetails.map
        (fun fd => fd.transformations) =
      project.files.map (fun f => f.transformations) := by
  show (project.files.map _).map _ = _
  rw [List.map_map]
  rfl

end BackendAgnosticMigrationEngine

/-- When every record of every file is `pending`, the per-status counts
of `calculateSummary` for a different status vanish. -/
theorem count_status_zero (files : List AnalyzedFile) (st : TransformationStatus)
    (hst : st ≠ TransformationStatus.pending)
    (hp : ∀ f ∈ files, ∀ t ∈ f.transformations, t.status = TransformationStatus.pending) :
    files.foldl
      (fun sum f => sum + (f.transformations.filter (fun t => decide (t.status = st))).length)
      0 = 0 := by
  rw [foldl_add_map
    (fun f : AnalyzedFile =>
      (f.transformations.filter (fun t => decide (t.status = st))).length) files 0]
  rw [Nat.zero_add]
  apply List.sum_eq_zero
  intro x hx
  rw [List.mem_map] at hx
  obtain ⟨f, hf, rfl⟩ := hx
  rw [List.length_eq_zero, List.filter_eq_nil_iff]
  intro t ht
  rw [hp f hf t ht]
  simp
  exact fun hh => hst hh.symm

/-- C3: in every generated report, `summary.totalIssues` is the sum of
the issue-list lengths over `fileDetails`, and `summary.modifiedFiles`
is the number of `fileDetails` entries with a nonempty transformation
list. -/
theorem C3_summary_consistent (project : AngularProject) (options : MigrationOptions)
    (backendType : String) :
    (BackendAgnosticMigrationEngine.generateReport project options backendType).summary.totalIssues =
      ((BackendAgnosticMigrationEngine.generateReport project options
          backendType).fileDetails.map (fun fd => fd.issues.length)).sum ∧
    (BackendAgnosticMigrationEngine.generateReport project options
        backendType).summary.modifiedFiles =
      ((BackendAgnosticMigrationEngine.generateReport project options
          backendType).fileDetails.filter
        (fun fd => decide (0 < fd.transformations.length))).length := by
  constructor
  · show project.files.foldl (fun sum f => sum + f.issues.length) 0 = _
    rw [foldl_add_map (fun f : AnalyzedFile => f.issues.length) project.files 0]
    rw [Nat.zero_add]
    rw [show (BackendAgnosticMigrationEngine.generateReport project options
        backendType).fileDetails =
      project.files.map (fun file =>
        { file := file, issues := file.issues,
          transformations := file.transformations, processingTime := 0 }) from rfl]
    rw [List.map_map]
    rfl
  · show (project.files.filter (fun f => decide (0 < f.transformations.length))).length = _
    rw [show (BackendAgnosticMigrationEngine.generateReport project options
        backendType).fileDetails =
      project.files.map (fun file =>
        { file := file, issues := file.issues,
          transformations := file.transformations, processingTime := 0 }) from rfl]
    rw [List.filter_map, List.length_map]
    rfl

/-- C10: every record emitted by the transformer is created with
`pending` status; consequently a completed engine run reports zero
applied and zero failed transformations. -/
theorem C10_all_records_pending :
    (∀ file options t, t ∈ ModernizationTransformer.transformFile file options →
      t.status = TransformationStatus.pending) ∧
    (∀ angularPaths currentVersion entries options backendType r,
      BackendAgnosticMigrationEngine.migrateProject angularPaths currentVersion entries
          options backendType = Except.ok r →
      r.summary.appliedTransformations = 0 ∧ r.summary.failedTransformations = 0) := by
  constructor
  · exact fun file options t hm =>
      ModernizationTransformer.transformFile_pending file options t hm
  · intro paths cv entries options bt r hr
    unfold BackendAgnosticMigrationEngine.migrateProject at hr
    split at hr
    · exact absurd hr (by simp)
    · rw [Except.ok.injEq] at hr
      subst hr
      have hnil := BackendAgnosticMigrationEngine.detect_discovered_transformations_nil entries
      have hpend : ∀ f ∈ (if options.mode ≠ MigrationMode.analyze then
            BackendAgnosticMigrationEngine.applyAngularTransformations
              (BackendAgnosticMigrationEngine.detectAngular5Patterns
                (ProjectAnalyzer.analyzeProjectFiles entries)) options
          else
            BackendAgnosticMigrationEngine.detectAngular5Patterns
              (ProjectAnalyzer.analyzeProjectFiles entries)),
          ∀ t ∈ f.transformations, t.status = TransformationStatus.pending := by
        split
        · exact BackendAgnosticMigrationEngine.applyAngularTransformations_pending _ options hnil
        · intro f hf t ht
          rw [hnil f hf] at ht
          simp at ht
      constructor
      · exact count_status_zero _ TransformationStatus.applied (by decide) hpend
      · exact count_status_zero _ TransformationStatus.failed (by decide) hpend

/-- One discovered module file for the C10 run. -/
def c10entries : List (String × String) := [("src/app/app.module.ts", "x")]

/-- The report of the C10 run. -/
def c10report : MigrationReport :=
  (BackendAgnosticMigrationEngine.migrateProject ["frontend"] "5.0.0" c10entries
    migrateOpts "Java").toOption.getD default

/-- Witness for C10: the module placeholder record is pending, and the
concrete run reports zero applied and failed transformations. -/
theorem C10_all_records_pending_witness :
    modulePlaceholderT.status = TransformationStatus.pending ∧
    (c10report.summary.appliedTransformations = 0 ∧
      c10report.summary.failedTransformations = 0) :=
  ⟨C10_all_records_pending.1 moduleWitnessFile migrateOpts modulePlaceholderT (by decide),
   C10_all_records_pending.2 ["frontend"] "5.0.0" c10entries migrateOpts "Java"
     c10report rfl⟩

/-- C7: the include/exclude substring filters gate only the transform
step.  First conjunct: `shouldProcessFile` is exactly "no exclude
pattern matches, and the include list is empty or some include pattern
matches".  Second conjunct: in every completed migrate-mode run, the
issue list of every file equals the analyzer output regardless of the
filters, while the transformation list of a file is the transformer
output if the filter admits it and empty otherwise. -/
theorem C7_filters_gate_only_transform :
    (∀ file options,
      BackendAgnosticMigrationEngine.shouldProcessFile file options =
        (!options.excludeList.any (fun pat => containsStr file.path pat) &&
          (options.includeList.isEmpty ||
            options.includeList.any (fun pat => containsStr file.path pat)))) ∧
    (∀ angularPaths currentVersion entries options backendType r,
      options.mode = MigrationMode.migrate →
      BackendAgnosticMigrationEngine.migrateProject angularPaths currentVersion entries
          options backendType = Except.ok r →
      r.fileDetails.map (fun fd => fd.issues) =
        (ProjectAnalyzer.analyzeProjectFiles entries).map Angular5Analyzer.analyzeFile ∧
      r.fileDetails.map (fun fd => fd.transformations) =
        (BackendAgnosticMigrationEngine.detectAngular5Patterns
            (ProjectAnalyzer.analyzeProjectFiles entries)).map
          (fun f =>
            if BackendAgnosticMigrationEngine.shouldProcessFile f options then
              ModernizationTransformer.transformFile f options
            else [])) := by
  constructor
  · intro file options
    unfold BackendAgnosticMigrationEngine.shouldProcessFile
    cases hex : options.excludeList.any (fun pat => containsStr file.path pat) with
    | true => simp [hex]
    | false =>
      cases hinc : options.includeList with
      | nil => simp [hex, hinc]
      | cons a as =>
        cases hany : (a :: as).any (fun pat => containsStr file.path pat) with
        | true => simp [hex, hinc, hany]
        | false => simp [hex, hinc, hany]
  · intro paths cv entries options bt r hmode hr
    unfold BackendAgnosticMigrationEngine.migrateProject at hr
    split at hr
    · exact absurd hr (by simp)
    · dsimp only at hr
      rw [if_pos (by rw [hmode]; decide :
        options.mode ≠ MigrationMode.analyze)] at hr
      rw [Except.ok.injEq] at hr
      subst hr
      have hnil := BackendAgnosticMigrationEngine.detect_discovered_transformations_nil entries
      constructor
      · rw [BackendAgnosticMigrationEngine.generateReport_issues_map]
        show (BackendAgnosticMigrationEngine.applyAngularTransformations _ options).map
            (fun f => f.issues) = _
        rw [BackendAgnosticMigrationEngine.applyAngularTransformations_issues]
        exact BackendAgnosticMigrationEngine.detect_discovered_issues entries
      · rw [BackendAgnosticMigrationEngine.generateReport_transformations_map]
        show (BackendAgnosticMigrationEngine.applyAngularTransformations _ options).map
            (fun f => f.transformations) = _
        exact BackendAgnosticMigrationEngine.applyAngularTransformations_transformations
          _ options hnil

/-- The two discovered templates of the C7 run (identical content, one
excluded by pattern). -/
def c7entries : List (String × String) :=
  [("src/app/a.html", "<div *ngIf=\x22ok\x22></div>"),
   ("src/app/b.html", "<div *ngIf=\x22ok\x22></div>")]

/-- The C7 options: migrate mode, excluding the second template. -/
def c7opts : MigrationOptions :=
  { mode := .migrate, backup := false, autoApply := false, excludeList := ["b.html"],
    includeList := [], verbose := false, generateReport := false }

/-- The report of the C7 run. -/
def c7report : MigrationReport :=
  (BackendAgnosticMigrationEngine.migrateProject ["frontend"] "5.0.0" c7entries c7opts
    "Java").toOption.getD default

set_option maxRecDepth 8192 in
/-- Witness for C7: in the concrete run both templates are detected (one
issue each) while only the non-excluded one is transformed. -/
theorem C7_filters_gate_only_transform_witness :
    (c7report.fileDetails.map (fun fd => fd.issues) =
        (ProjectAnalyzer.analyzeProjectFiles c7entries).map Angular5Analyzer.analyzeFile ∧
      c7report.fileDetails.map (fun fd => fd.transformations) =
        (BackendAgnosticMigrationEngine.detectAngular5Patterns
            (ProjectAnalyzer.analyzeProjectFiles c7entries)).map
          (fun f =>
            if BackendAgnosticMigrationEngine.shouldProcessFile f c7opts then
              ModernizationTransformer.transformFile f c7opts
            else [])) ∧
    c7report.fileDetails.map (fun fd => fd.issues.length) = [1, 1] ∧
    c7report.fileDetails.map (fun fd => fd.transformations.length) = [1, 0] :=
  ⟨C7_filters_gate_only_transform.2 ["frontend"] "5.0.0" c7entries c7opts "Java"
      c7report rfl rfl,
   rfl, rfl⟩
